import Mathlib

/-!
Verification of the ATA work-order analyzer core
(`core/decision_engine.py`, `core/non_defect_filter.py`,
`core/citation_extractor.py`, `core/wo_processor.py`).

The Python code is shallowly embedded:
* strings are `String` (a `List Char` at the kernel level); the inputs in
  scope are ASCII, so `str.lower`, `str.upper`, `str.isdigit` and `\b`, `\d`,
  `\s` are modelled on ASCII code points;
* floats (the catalog similarity scores and confidences) are modelled as `ℚ`;
  every comparison the code performs on them (`< 0.3`, `>= 0.8`, truthiness,
  equality with literals) is exact at these values;
* `None`-able values are `Option`; Python truthiness of a string is
  "not empty", of a float "not 0.0", of `None` "false";
* code that can raise returns `Except Unit`;
* the regular expressions of the filter and the extractor are embedded as a
  small backtracking matcher with Python `re` semantics for the constructs
  those patterns use: leftmost match, alternatives tried in order, greedy
  `?` `*` `+` on character classes, word boundaries, capturing groups,
  case-insensitive literals.
-/

/-! ## ASCII character model (Python `str.lower`, `str.upper`, `str.isdigit`) -/

/-- ASCII `str.isdigit` for a single character. -/
def pyIsDigit (c : Char) : Bool := 48 ≤ c.toNat && c.toNat ≤ 57

/-- ASCII lower-casing of a single character (`str.lower`). -/
def pyToLower (c : Char) : Char :=
  if 65 ≤ c.toNat ∧ c.toNat ≤ 90 then Char.ofNat (c.toNat + 32) else c

/-- ASCII upper-casing of a single character (`str.upper`). -/
def pyToUpper (c : Char) : Char :=
  if 97 ≤ c.toNat ∧ c.toNat ≤ 122 then Char.ofNat (c.toNat - 32) else c

/-- Python's `\s` class (ASCII): space, tab, newline, CR, vertical tab, form feed. -/
def pyIsSpace (c : Char) : Bool :=
  c = ' ' || c = '\t' || c = '\n' || c = '\r' || c = '\x0b' || c = '\x0c'

/-- Python's `\w` class (ASCII): letters, digits, underscore; used for `\b`. -/
def pyIsWord (c : Char) : Bool :=
  pyIsDigit c || (65 ≤ c.toNat && c.toNat ≤ 90) || (97 ≤ c.toNat && c.toNat ≤ 122) || c = '_'

/-- `str.lower` on a whole string. -/
def lowerStr (s : String) : String := String.mk (s.data.map pyToLower)

/-- `str.upper` on a whole string. -/
def upperStr (s : String) : String := String.mk (s.data.map pyToUpper)

/-- `str.strip()` on a character list. -/
def pyStripL (l : List Char) : List Char :=
  (((l.dropWhile pyIsSpace).reverse).dropWhile pyIsSpace).reverse

/-- `str.strip()`. -/
def pyStrip (s : String) : String := String.mk (pyStripL s.data)

/-- `str.isdigit()` on a whole string: nonempty and all digits. -/
def isDigitStr (s : String) : Bool := !s.data.isEmpty && s.data.all pyIsDigit

/-! ## A backtracking regex matcher with Python `re` semantics

Only the constructs appearing in the source's patterns are supported:
literals (case-insensitive, the source compiles with `re.IGNORECASE`),
character classes, concatenation, ordered alternation, greedy `?`,
greedy `*`/`+` restricted to character classes (`\s*`, `\s+`),
word boundary `\b`, and numbered capturing groups. -/

inductive Rx where
  | fail
  | eps
  | lit (c : Char)
  | cls (p : Char → Bool)
  | seq (a b : Rx)
  | alt (a b : Rx)
  | opt (a : Rx)
  | starCls (p : Char → Bool)
  | plusCls (p : Char → Bool)
  | wb
  | grp (n : Nat) (a : Rx)

/-- Captured groups of a match: group number ↦ captured text (latest first). -/
abbrev Caps := List (Nat × String)

/-- `\b`: word-character status differs between the previous character and the
next character (absence of a character counts as non-word). -/
def wordBoundary (prev : Option Char) (s : List Char) : Bool :=
  let before := match prev with | none => false | some c => pyIsWord c
  let after := match s with | [] => false | c :: _ => pyIsWord c
  before != after

/-- All ways for a greedy `+` over class `p` to consume a nonempty prefix,
longest first.  Each result is (last consumed char, remaining suffix). -/
def plusSplits (p : Char → Bool) : List Char → List (Char × List Char)
  | [] => []
  | c :: cs => if p c then plusSplits p cs ++ [(c, cs)] else []

/-- Run a regex against suffix `s` (the character before `s` being `prev`),
returning every way it can match a prefix of `s`, in Python backtracking
priority order.  Each result is (char before remaining suffix, remaining
suffix, captures). -/
def Rx.run : Rx → Option Char → List Char → Caps → List (Option Char × List Char × Caps)
  | .fail, _, _, _ => []
  | .eps, prev, s, caps => [(prev, s, caps)]
  | .lit c, _, s, caps =>
    match s with
    | [] => []
    | d :: rest => if pyToLower d = pyToLower c then [(some d, rest, caps)] else []
  | .cls p, _, s, caps =>
    match s with
    | [] => []
    | d :: rest => if p d then [(some d, rest, caps)] else []
  | .seq a b, prev, s, caps =>
    (a.run prev s caps).flatMap fun t => b.run t.1 t.2.1 t.2.2
  | .alt a b, prev, s, caps => a.run prev s caps ++ b.run prev s caps
  | .opt a, prev, s, caps => a.run prev s caps ++ [(prev, s, caps)]
  | .starCls p, prev, s, caps =>
    ((plusSplits p s).map fun t => (some t.1, t.2, caps)) ++ [(prev, s, caps)]
  | .plusCls p, _, s, caps =>
    (plusSplits p s).map fun t => (some t.1, t.2, caps)
  | .wb, prev, s, caps => if wordBoundary prev s then [(prev, s, caps)] else []
  | .grp n a, prev, s, caps =>
    (a.run prev s caps).map fun t =>
      (t.1, t.2.1, (n, String.mk (s.take (s.length - t.2.1.length))) :: t.2.2)

/-- Concatenation of a pattern list. -/
def rxCat : List Rx → Rx
  | [] => .eps
  | [r] => r
  | r :: rs => .seq r (rxCat rs)

/-- Ordered alternation of a pattern list (as `re` joins patterns with `|`). -/
def rxAlt : List Rx → Rx
  | [] => .fail
  | [r] => r
  | r :: rs => .alt r (rxAlt rs)

/-- A case-insensitive literal word. -/
def rxStr (w : String) : Rx := rxCat (w.data.map Rx.lit)

/-- `re.search` made explicit on suffixes: the first (leftmost) match,
returning (start position, match length, captures).  `pos` is the absolute
index of suffix `s`. -/
def firstMatchAux (r : Rx) : Option Char → List Char → Nat → Option (Nat × Nat × Caps)
  | prev, [], pos =>
    (r.run prev [] []).head?.map fun t => (pos, 0, t.2.2)
  | prev, c :: cs, pos =>
    match (r.run prev (c :: cs) []).head? with
    | some t => some (pos, (c :: cs).length - t.2.1.length, t.2.2)
    | none => firstMatchAux r (some c) cs (pos + 1)

/-- `re.search` over a whole character list. -/
def reSearch (r : Rx) (cs : List Char) : Option (Nat × Nat × Caps) :=
  firstMatchAux r none cs 0

/-- `match.group()`: the text of a match at `(start, len)` in `cs`. -/
def matchText (cs : List Char) (start len : Nat) : String :=
  String.mk ((cs.drop start).take len)

/-- `re.finditer`: all non-overlapping matches, scanning left to right and
continuing after the end of each match.  The fuel is an upper bound on the
number of matches (each consumes at least one character). -/
def finditerAux (r : Rx) : Nat → Option Char → List Char → Nat → List (Nat × Nat × Caps)
  | 0, _, _, _ => []
  | fuel + 1, prev, s, pos =>
    match firstMatchAux r prev s pos with
    | none => []
    | some (i, len, caps) =>
      let step := i - pos + max len 1
      (i, len, caps) ::
        finditerAux r fuel ((s.take step).getLast? <|> prev) (s.drop step) (pos + step)

/-- `re.finditer` over a whole character list. -/
def finditer (r : Rx) (cs : List Char) : List (Nat × Nat × Caps) :=
  finditerAux r (cs.length + 1) none cs 0

/-- `match.groups()` for a pattern with `n` groups: group `k+1`'s latest
capture, or `none` if the group did not participate. -/
def groupsOf (caps : Caps) (n : Nat) : List (Option String) :=
  (List.range n).map fun k => (caps.find? fun e => e.1 = k + 1).map Prod.snd

/-! ## Non-Defect Filter (`core/non_defect_filter.py`) -/

namespace NonDefectFilter

/-- `\s+` between words of a pattern. -/
def wsp : Rx := .plusCls pyIsSpace

/-- `NON_DEFECT_PATTERNS`, in source order. -/
def NON_DEFECT_PATTERNS : List Rx :=
  [ rxCat [.wb, rxStr "clean", .opt (.alt (rxStr "ing") (rxStr "ed")), .wb],
    rxCat [.wb, rxStr "lubrication", .wb],
    rxCat [.wb, rxStr "servicing", .wb],
    rxCat [.wb, rxStr "oil", wsp, rxStr "replenish",
           .opt (.alt (rxStr "ment") (rxStr "ed")), .wb],
    rxCat [.wb, rxStr "first", wsp, rxStr "aid", wsp, rxStr "kit", .wb],
    rxCat [.wb, rxStr "tyre", wsp, rxStr "wear", .wb],
    rxCat [.wb, rxStr "tire", wsp, rxStr "wear", .wb],
    rxCat [.wb, rxStr "scheduled", wsp,
           rxAlt [rxStr "maintenance", rxStr "inspection", rxStr "check"], .wb],
    rxCat [.wb, rxStr "routine", wsp,
           rxAlt [rxStr "maintenance", rxStr "inspection", rxStr "check"], .wb],
    rxCat [.wb, rxStr "software", wsp, rxStr "load",
           .opt (.alt (rxStr "ing") (rxStr "ed")), .wb],
    rxCat [.wb, rxStr "software", wsp, rxStr "update", .wb],
    rxCat [.wb, rxStr "nff", .wb],
    rxCat [.wb, rxStr "no", wsp, rxStr "fault", wsp, rxStr "found", .wb],
    rxCat [.wb, rxStr "operational", wsp, rxStr "check", .wb],
    rxCat [.wb, rxStr "functional", wsp, rxAlt [rxStr "test", rxStr "check"], .wb],
    rxCat [.wb, rxStr "visual", wsp, rxStr "inspection", .wb],
    rxCat [.wb, rxStr "general", wsp, rxStr "inspection", .wb],
    rxCat [.wb, rxStr "periodic", wsp, rxAlt [rxStr "check", rxStr "inspection"], .wb],
    rxCat [.wb, rxStr "replacement", wsp, rxStr "as", wsp, rxStr "per", wsp,
           rxStr "schedule", .wb],
    rxCat [.wb, rxStr "life", wsp, rxStr "limited", wsp, rxStr "part", .wb],
    rxCat [.wb, rxStr "llp", wsp, rxStr "replacement", .wb],
    rxCat [.wb, rxStr "cabin", wsp,
           rxAlt [rxStr "cleaning", rxStr "refurbishment"], .wb],
    rxCat [.wb, rxStr "cosmetic", wsp, rxStr "repair", .wb],
    rxCat [.wb, rxStr "seat", wsp, rxAlt [rxStr "cleaning", rxStr "cover"], .wb],
    rxCat [.wb, rxStr "carpet", wsp, rxAlt [rxStr "cleaning", rxStr "replacement"], .wb],
    rxCat [.wb, rxStr "lavatory", wsp, rxAlt [rxStr "cleaning", rxStr "servicing"], .wb],
    rxCat [.wb, rxStr "galley", wsp, rxAlt [rxStr "cleaning", rxStr "servicing"], .wb],
    rxCat [.wb, rxStr "passenger", wsp, rxAlt [rxStr "seat", rxStr "entertainment"],
           wsp, rxAlt [rxStr "cleaning", rxStr "adjustment"], .wb] ]

/-- `DEFECT_OVERRIDE_PATTERNS`, in source order. -/
def DEFECT_OVERRIDE_PATTERNS : List Rx :=
  [ rxCat [.wb, rxStr "failure", .wb],
    rxCat [.wb, rxStr "failed", .wb],
    rxCat [.wb, rxStr "fault", .wb],
    rxCat [.wb, rxStr "faulty", .wb],
    rxCat [.wb, rxStr "leak", .opt (.alt (rxStr "ing") (rxStr "age")), .wb],
    rxCat [.wb, rxStr "overheat", .opt (.alt (rxStr "ing") (rxStr "ed")), .wb],
    rxCat [.wb, rxStr "vibration", .wb],
    rxCat [.wb, rxStr "ecam", .wb],
    rxCat [.wb, rxStr "eicas", .wb],
    rxCat [.wb, rxStr "cas", .wb],
    rxCat [.wb, rxStr "warning", .wb],
    rxCat [.wb, rxStr "smoke", .wb],
    rxCat [.wb, rxStr "inoperative", .wb],
    rxCat [.wb, rxStr "inop", .wb],
    rxCat [.wb, rxStr "unserviceable", .wb],
    rxCat [.wb, rxStr "u/s", .wb],
    rxCat [.wb, rxStr "defect", .opt (rxStr "ive"), .wb],
    rxCat [.wb, rxStr "damage", .opt (rxStr "d"), .wb],
    rxCat [.wb, rxStr "broken", .wb],
    rxCat [.wb, rxStr "crack", .opt (rxStr "ed"), .wb],
    rxCat [.wb, rxStr "corrosion", .wb],
    rxCat [.wb, rxStr "error", .wb],
    rxCat [.wb, rxStr "abnormal", .wb],
    rxCat [.wb, rxStr "malfunction", .wb],
    rxCat [.wb, rxStr "not", wsp, rxStr "working", .wb],
    rxCat [.wb, rxStr "out", wsp, rxStr "of", wsp, rxStr "tolerance", .wb],
    rxCat [.wb, rxStr "exceed", .opt (.alt (rxStr "ed") (rxStr "s")), wsp,
           rxStr "limit", .wb],
    rxCat [.wb, rxStr "high", wsp,
           rxAlt [rxStr "temperature", rxStr "pressure", rxStr "vibration"], .wb],
    rxCat [.wb, rxStr "low", wsp, rxAlt [rxStr "pressure", rxStr "oil", rxStr "fuel"], .wb],
    rxCat [.wb, rxStr "contamination", .wb],
    rxCat [.wb, rxStr "wear", wsp, rxAlt [rxStr "beyond", rxStr "exceeds"], .wb],
    rxCat [.wb, rxStr "noise", .wb],
    rxCat [.wb, rxStr "unusual", wsp,
           rxAlt [rxStr "noise", rxStr "sound", rxStr "smell"], .wb] ]

/-- `self.non_defect_regex`: the `|`-join of the non-defect patterns. -/
def nonDefectRegex : Rx := rxAlt NON_DEFECT_PATTERNS

/-- `self.defect_override_regex`: the `|`-join of the override patterns. -/
def defectOverrideRegex : Rx := rxAlt DEFECT_OVERRIDE_PATTERNS

/-- `NonDefectFilter.is_technical_defect`: combine the two texts, lower-case,
check the defect-override patterns first, then the non-defect patterns, and
default to "is a defect". -/
def is_technical_defect (description : String) (action : String := "") : Bool × String :=
  let combined_text := lowerStr (description ++ " " ++ action)
  let cs := combined_text.data
  match reSearch defectOverrideRegex cs with
  | some (i, len, _) =>
    (true, "Defect indicator found: '" ++ matchText cs i len ++ "'")
  | none =>
    match reSearch nonDefectRegex cs with
    | some (i, len, _) =>
      (false, "Routine maintenance: '" ++ matchText cs i len ++ "'")
    | none => (true, "Default: no non-defect pattern found")

end NonDefectFilter

/-! ## Citation Extractor (`core/citation_extractor.py`) -/

namespace CitationExtractor

/-- `(TSM|FIM|AMM)`. -/
def manualAlt : Rx := rxAlt [rxStr "TSM", rxStr "FIM", rxStr "AMM"]

/-- `\d`. -/
def dig : Rx := .cls pyIsDigit

/-- `\d{2}`. -/
def d2 : Rx := .seq dig dig

/-- `\d{3}`. -/
def d3 : Rx := .seq dig (.seq dig dig)

/-- `-`. -/
def dash : Rx := .lit '-'

/-- `\s*`. -/
def wss : Rx := .starCls pyIsSpace

/-- Pattern 1: `\b(TSM|FIM|AMM)\s*(\d{2})-(\d{2})-(\d{2})(?:-(\d{3}))?(?:-(\d{3}))?\b`. -/
def pattern1 : Rx :=
  rxCat [.wb, .grp 1 manualAlt, wss, .grp 2 d2, dash, .grp 3 d2, dash, .grp 4 d2,
         .opt (.seq dash (.grp 5 d3)), .opt (.seq dash (.grp 6 d3)), .wb]

/-- Pattern 2: `\b(TSM|FIM|AMM)(\d{2})-?(\d{2})-?(\d{2})(?:-?(\d{3}))?(?:-?(\d{3}))?\b`. -/
def pattern2 : Rx :=
  rxCat [.wb, .grp 1 manualAlt, .grp 2 d2, .opt dash, .grp 3 d2, .opt dash, .grp 4 d2,
         .opt (.seq (.opt dash) (.grp 5 d3)), .opt (.seq (.opt dash) (.grp 6 d3)), .wb]

/-- Pattern 3: `\b(\d{2})-(\d{2})-(\d{2})(?:-(\d{3}))?(?:-(\d{3}))?\b`. -/
def pattern3 : Rx :=
  rxCat [.wb, .grp 1 d2, dash, .grp 2 d2, dash, .grp 3 d2,
         .opt (.seq dash (.grp 4 d3)), .opt (.seq dash (.grp 5 d3)), .wb]

/-- Pattern 4: `\b(?:task|ref|reference)\s*:?\s*(TSM|FIM|AMM)?\s*(\d{2})-?(\d{2})-?(\d{2})\b`. -/
def pattern4 : Rx :=
  rxCat [.wb, rxAlt [rxStr "task", rxStr "ref", rxStr "reference"], wss, .opt (.lit ':'),
         wss, .opt (.grp 1 manualAlt), wss, .grp 2 d2, .opt dash, .grp 3 d2, .opt dash,
         .grp 4 d2, .wb]

/-- The compiled pattern list with each pattern's number of capturing groups. -/
def compiled_patterns : List (Rx × Nat) :=
  [(pattern1, 6), (pattern2, 6), (pattern3, 5), (pattern4, 4)]

/-- `MANUAL_TYPES`. -/
def MANUAL_TYPES : List (String × String) :=
  [("TSM", "TSM"), ("FIM", "FIM"), ("AMM", "AMM"), ("TASK", "AMM"), ("REF", "TSM")]

/-- A parsed manual citation (the dict returned by `_parse_match`).
`sect` is the source's `section` field (`section` is reserved in Lean). -/
structure Citation where
  manual_type : String
  task_number : String
  ata04 : String
  chapter : String
  sect : String
  subject : String
  subsection1 : Option String
  subsection2 : Option String
  raw_match : String
deriving DecidableEq, Repr

/-- The dedup key of a citation: `f"{manual_type}-{task_number}"`. -/
def citeKey (c : Citation) : String := c.manual_type ++ "-" ++ c.task_number

/-- `_parse_match`, on `match.groups()` and `match.group()`.  The source also
computes a `start_idx` in the manual-type branch, but never uses it. -/
def parse_match (groups : List (Option String)) (raw : String) : Option Citation :=
  let manual_type : String :=
    match groups.head? with
    | some (some g0) =>
      if g0 ≠ "" then
        match (MANUAL_TYPES.find? fun e => e.1 = upperStr g0).map Prod.snd with
        | some m => m
        | none => "TSM"
      else "TSM"
    | _ => "TSM"
  let numeric_groups := (groups.filterMap id).filter isDigitStr
  match numeric_groups with
  | chapter :: sect :: rest =>
    let subject := match rest with | s :: _ => s | [] => "00"
    let subsection1 := match rest with | _ :: s :: _ => some s | _ => none
    let subsection2 := match rest with | _ :: _ :: s :: _ => some s | _ => none
    let task_parts := [chapter, sect, subject] ++
      (match subsection1 with | some s => if s ≠ "" then [s] else [] | none => []) ++
      (match subsection2 with | some s => if s ≠ "" then [s] else [] | none => [])
    some { manual_type := manual_type
           task_number := String.intercalate "-" task_parts
           ata04 := chapter ++ "-" ++ sect
           chapter := chapter
           sect := sect
           subject := subject
           subsection1 := subsection1
           subsection2 := subsection2
           raw_match := raw }
  | _ => none

/-- The body of the double loop of `extract_citations`: parse a match and add
the citation unless its key was already produced. -/
def addMatch (pat : Rx × Nat) (cs : List Char) (acc : List Citation × List String)
    (m : Nat × Nat × Caps) : List Citation × List String :=
  match parse_match (groupsOf m.2.2 pat.2) (matchText cs m.1 m.2.1) with
  | none => acc
  | some c =>
    let key := citeKey c
    if key ∈ acc.2 then acc else (acc.1 ++ [c], acc.2 ++ [key])

/-- `extract_citations`: run each pattern's `finditer` over the whole text in
priority order, deduplicating by (manual type, task number). -/
def extract_citations (text : String) : List Citation :=
  if text = "" then []
  else
    let cs := text.data
    (compiled_patterns.foldl
      (fun acc pat => (finditer pat.1 cs).foldl (addMatch pat cs) acc)
      ([], [])).1

end CitationExtractor

/-! ## Decision Engine (`core/decision_engine.py`) -/

/-- Render a score with two decimals, as the f-string `{score:.2f}` does.
The source formats an IEEE double with round-half-even; on the scores that
arise in this development the two renderings agree. -/
def ratFmt2 (q : ℚ) : String :=
  let n : Int := Int.fdiv (200 * q.num + (q.den : Int)) (2 * (q.den : Int))
  let render (m : Nat) : String :=
    toString (m / 100) ++ "." ++ (if m % 100 < 10 then "0" else "") ++ toString (m % 100)
  if n < 0 then "-" ++ render (-n).toNat else render n.toNat

/-- Python `str(x)` for an optional string, as interpolated by an f-string
(`None` prints as `"None"`). -/
def optStr : Option String → String
  | none => "None"
  | some s => s

/-- The dict returned by `DecisionEngine.make_decision`. -/
structure DecisionResult where
  decision : String
  ata04_final : Option String
  confidence : ℚ
  reason : String
deriving DecidableEq, Repr

namespace DecisionEngine

/-- `DecisionEngine._normalize`: strip, drop spaces, keep the digits, and
format the first four as `AA-BB`; `None` when fewer than four digits. -/
def normalize (ata : Option String) : Option String :=
  match ata with
  | none => none
  | some s =>
    if s = "" then none
    else
      let ata_clean := (pyStrip s).data.filter fun c => c ≠ ' '
      let digits := ata_clean.filter pyIsDigit
      if 4 ≤ digits.length then
        some (String.mk (digits.take 2) ++ "-" ++ String.mk ((digits.drop 2).take 2))
      else none

/-- `DecisionEngine._calculate_e2_confidence`.  `if not score` catches both
`None` and `0.0`. -/
def calculate_e2_confidence (score : Option ℚ) : ℚ :=
  match score with
  | none => mkRat 68 100
  | some s =>
    if s = 0 then mkRat 68 100
    else if mkRat 8 10 ≤ s then mkRat 88 100
    else if mkRat 6 10 ≤ s then mkRat 83 100
    else if mkRat 4 10 ≤ s then mkRat 78 100
    else if mkRat 2 10 ≤ s then mkRat 73 100
    else mkRat 68 100

/-- Python truthiness of the score combined with `score < bound`
(`e2_score and e2_score < 0.3`). -/
def scTruthyLt : Option ℚ → ℚ → Prop
  | none, _ => False
  | some q, b => ¬q = 0 ∧ q < b

instance : ∀ sc b, Decidable (scTruthyLt sc b)
  | none, _ => isFalse fun h => h
  | some q, b => inferInstanceAs (Decidable (¬q = 0 ∧ q < b))

/-- Python truthiness of the score combined with `score >= bound`
(`e2_score and e2_score >= 0.3`). -/
def scTruthyGe : Option ℚ → ℚ → Prop
  | none, _ => False
  | some q, b => ¬q = 0 ∧ b ≤ q

instance : ∀ sc b, Decidable (scTruthyGe sc b)
  | none, _ => isFalse fun h => h
  | some q, b => inferInstanceAs (Decidable (¬q = 0 ∧ b ≤ q))

/-- `DecisionEngine.make_decision`: the fixed-priority rule cascade.  The
Case-3 branch interpolates `{e2_score:.2f}` into its reason; when `e2_score`
is `None`, Python raises `TypeError` there, modelled as `Except.error ()`. -/
def make_decision (confidence_threshold : ℚ) (e0r e1r : Option String)
    (e1_valid : Option Bool) (e2r : Option String) (e2_score : Option ℚ) :
    Except Unit DecisionResult :=
  let e0 := normalize e0r
  let e1 := if e1_valid = some true then normalize e1r else none
  let e2 := normalize e2r
  -- Case 1: all three agree
  if e0.isSome ∧ e1.isSome ∧ e2.isSome ∧ e0 = e1 ∧ e1 = e2 then
    .ok ⟨"CONFIRM", e0, mkRat 97 100, "All sources agree (E0=E1=E2)"⟩
  -- Case 2: E1 and E2 agree, differ from E0
  else if e1.isSome ∧ e2.isSome ∧ e1 = e2 ∧ ¬e0 = e1 then
    .ok ⟨"CORRECT", e1, mkRat 95 100,
      "Citation and derived agree on " ++ optStr e1 ++ ", differs from entered " ++
        optStr e0⟩
  -- Case 3: only E2 matches E0
  else if e0.isSome ∧ e2.isSome ∧ e0 = e2 ∧ e1 = none then
    match e2_score with
    | none => .error ()
    | some q =>
      .ok ⟨"CONFIRM", e0, calculate_e2_confidence e2_score,
        "Catalog confirms entered ATA (score: " ++ ratFmt2 q ++ ")"⟩
  -- Case 4: only E1 valid (no E2 or low score)
  else if e1.isSome ∧ (e2 = none ∨ scTruthyLt e2_score (mkRat 3 10)) then
    if e0 = e1 then
      .ok ⟨"CONFIRM", e0, mkRat 92 100, "Valid citation confirms entered ATA"⟩
    else
      .ok ⟨"CORRECT", e1, mkRat 90 100,
        "Valid citation " ++ optStr e1 ++ " differs from entered " ++ optStr e0⟩
  -- Case 5: only E2 with good score
  else if e2.isSome ∧ scTruthyGe e2_score (mkRat 3 10) ∧ e1 = none then
    let confidence := calculate_e2_confidence e2_score
    let scoreTxt := match e2_score with | some q => ratFmt2 q | none => ""
    if e0 = e2 then
      .ok ⟨"CONFIRM", e0, confidence, "Catalog confirms (score: " ++ scoreTxt ++ ")"⟩
    else if confidence_threshold ≤ confidence then
      .ok ⟨"CORRECT", e2, confidence,
        "Catalog suggests " ++ optStr e2 ++ " (score: " ++ scoreTxt ++ ")"⟩
    else
      .ok ⟨"REVIEW", e0, confidence, "Low catalog confidence (score: " ++ scoreTxt ++ ")"⟩
  -- Case 6: E1 and E2 disagree
  else if e1.isSome ∧ e2.isSome ∧ ¬e1 = e2 then
    if e0 = e1 then
      .ok ⟨"CONFIRM", e0, mkRat 88 100,
        "Citation confirms E0=" ++ optStr e1 ++ ", catalog suggests " ++ optStr e2⟩
    else if e0 = e2 then
      let e2_conf := calculate_e2_confidence e2_score
      if mkRat 85 100 ≤ e2_conf then
        .ok ⟨"CONFIRM", e0, mkRat 85 100,
          "Strong catalog confirms E0=" ++ optStr e2 ++ ", citation suggests " ++
            optStr e1⟩
      else
        .ok ⟨"REVIEW", e0, mkRat 70 100,
          "Conflict: citation=" ++ optStr e1 ++ ", catalog=" ++ optStr e2⟩
    else
      .ok ⟨"REVIEW", e0, mkRat 65 100,
        "All differ: E0=" ++ optStr e0 ++ ", citation=" ++ optStr e1 ++ ", catalog=" ++
          optStr e2⟩
  -- Case 7: only E0
  else if e0.isSome ∧ e1 = none ∧ e2 = none then
    .ok ⟨"REVIEW", e0, mkRat 65 100, "No citation or catalog match found"⟩
  -- Case 8: nothing usable (`e0 if e0 else None` is `e0` itself)
  else
    .ok ⟨"REVIEW", e0, mkRat 50 100, "Insufficient data for decision"⟩

end DecisionEngine

/-! ## Work Order Processor (`core/wo_processor.py`) -/

namespace WOProcessor

/-- The fields `process_wo` reads from its input dict (each read with
`wo_dict.get(key, '')`). -/
structure WOInput where
  ATA04_Entered : String
  Defect_Text : String
  Rectification_Text : String
  WO_Type : String
  AC_Registration : String
  Open_Date : String
  Close_Date : String
deriving DecidableEq, Repr

/-- The `WOResult` dataclass. -/
structure WOResult where
  ATA04_Entered : String
  Defect_Text : String
  Rectification_Text : String
  WO_Type : String
  AC_Registration : String
  Open_Date : String
  Close_Date : String
  Is_Technical_Defect : Bool
  Non_Defect_Reason : Option String := none
  ATA04_From_Cited : Option String := none
  Cited_Manual : Option String := none
  Cited_Task : Option String := none
  Cited_Exists : Option Bool := none
  ATA04_Derived : Option String := none
  Derived_Task : Option String := none
  Derived_DocType : Option String := none
  Derived_Score : Option ℚ := none
  Evidence_Snippet : Option String := none
  Evidence_Source : Option String := none
  Decision : String := "REVIEW"
  ATA04_Final : Option String := none
  Confidence : Option ℚ := none
  Reason : Option String := none
deriving DecidableEq, Repr

/-- The dict returned by `ATACatalog.predict_ata` (the catalog collaborator is
external data and model files; the processor consumes it through this shape). -/
structure CatalogPrediction where
  ata04 : String
  score : ℚ
  description : String
  keywords : List String
deriving DecidableEq, Repr

/-- The `WOProcessor` configuration: the catalog collaborator as a function,
plus the constructor arguments. -/
structure Cfg where
  predict_ata : String → Option CatalogPrediction
  mode : String := "catalog"
  filter_non_defect : Bool := true
  confidence_threshold : ℚ := mkRat 75 100

/-- The processor cache `self._cache`, a dict keyed by `_get_cache_key`.
New bindings are prepended; lookup takes the newest. -/
abbrev Cache := List (String × WOResult)

/-- `_get_cache_key` hashes `f"{defect_text}|{rectification_text}"` with
SHA-1 (16 hex chars).  The embedding keys the cache by the hashed string
itself: two texts collide exactly when (hash collisions aside) the source
would hit the same entry. -/
def get_cache_key (defect_text rectification_text : String) : String :=
  defect_text ++ "|" ++ rectification_text

/-- `WOProcessor._normalize_ata`: like the engine's normalizer but dashes are
also dropped before the digit scan, and on failure the stripped raw string is
returned instead of `None`. -/
def normalize_ata (ata : String) : String :=
  if ata = "" then ""
  else
    let ata_str := pyStrip ata
    let ata_clean := ata_str.data.filter fun c => c ≠ ' ' ∧ c ≠ '-'
    let digits := ata_clean.filter pyIsDigit
    if 4 ≤ digits.length then
      String.mk (digits.take 2) ++ "-" ++ String.mk ((digits.drop 2).take 2)
    else ata_str

/-- `WOProcessor.process_wo`.  A cache hit mutates the cached object's per-row
fields in place and returns it; a miss runs the four phases.  The decision
engine call can raise (see `DecisionEngine.make_decision`), which propagates. -/
def process_wo (cfg : Cfg) (cache : Cache) (wo : WOInput) :
    Except Unit (WOResult × Cache) :=
  let ata_entered := normalize_ata wo.ATA04_Entered
  let defect_text := wo.Defect_Text
  let rectification_text := wo.Rectification_Text
  let cache_key := get_cache_key defect_text rectification_text
  match (cache.find? fun e => e.1 = cache_key).map Prod.snd with
  | some cached =>
    let updated := { cached with
      ATA04_Entered := ata_entered
      WO_Type := wo.WO_Type
      AC_Registration := wo.AC_Registration
      Open_Date := wo.Open_Date
      Close_Date := wo.Close_Date }
    .ok (updated, (cache_key, updated) :: cache)
  | none =>
    let result : WOResult :=
      { ATA04_Entered := ata_entered
        Defect_Text := defect_text
        Rectification_Text := rectification_text
        WO_Type := wo.WO_Type
        AC_Registration := wo.AC_Registration
        Open_Date := wo.Open_Date
        Close_Date := wo.Close_Date
        Is_Technical_Defect := true }
    -- Phase 1: filter non-defects
    let gate := NonDefectFilter.is_technical_defect defect_text rectification_text
    let result := if cfg.filter_non_defect then
        { result with Is_Technical_Defect := gate.1, Non_Defect_Reason := some gate.2 }
      else result
    if cfg.filter_non_defect ∧ gate.1 = false then
      let final := { result with
        Decision := "NON_DEFECT"
        ATA04_Final := some ata_entered
        Confidence := some (mkRat 99 100)
        Reason := some ("Non-technical: " ++ gate.2) }
      .ok (final, (cache_key, final) :: cache)
    else
      -- Phase 2: extract citations (E1); `Cited_Exists` is hardcoded `True`
      -- (the source's `# TODO: Validate against registry`)
      let citations := CitationExtractor.extract_citations rectification_text
      let result := match citations with
        | [] => result
        | c :: _ => { result with
            ATA04_From_Cited := some c.ata04
            Cited_Manual := some c.manual_type
            Cited_Task := some c.task_number
            Cited_Exists := some true }
      -- Phase 3: derive from catalog (E2); only `mode == 'catalog'` assigns
      let result := if cfg.mode = "catalog" then
          match cfg.predict_ata defect_text with
          | some derived => { result with
              ATA04_Derived := some derived.ata04
              Derived_DocType := some "CATALOG"
              Derived_Score := some derived.score
              Evidence_Snippet := some derived.description
              Evidence_Source := some "ATA Catalog" }
          | none => result
        else result
      -- Phase 4: decision engine
      match DecisionEngine.make_decision cfg.confidence_threshold
          (some ata_entered) result.ATA04_From_Cited result.Cited_Exists
          result.ATA04_Derived result.Derived_Score with
      | .error e => .error e
      | .ok d =>
        let final := { result with
          Decision := d.decision
          ATA04_Final := d.ata04_final
          Confidence := some d.confidence
          Reason := some d.reason }
        .ok (final, (cache_key, final) :: cache)

end WOProcessor

/-! ## Helper facts -/

instance {e a : Type} [DecidableEq e] [DecidableEq a] : DecidableEq (Except e a)
  | .error x, .error y =>
    if h : x = y then .isTrue (by rw [h]) else .isFalse (by simp [h])
  | .error _, .ok _ => .isFalse (by simp)
  | .ok _, .error _ => .isFalse (by simp)
  | .ok x, .ok y =>
    if h : x = y then .isTrue (by rw [h]) else .isFalse (by simp [h])

/-- Whether a string matches the boundary format regex `^\d{2}-\d{2}$`. -/
def isAta04 (s : String) : Bool :=
  match s.data with
  | [a, b, c, d, e] => pyIsDigit a && pyIsDigit b && c = '-' && pyIsDigit d && pyIsDigit e
  | _ => false

/-- The digit subsequence of a string. -/
def digitsOf (s : String) : List Char := s.data.filter pyIsDigit

/-- The lower-cased combined text `f"{description} {action}".lower()` that the
Non-Defect Gate scans, as a character list. -/
def combinedChars (description action : String) : List Char :=
  (lowerStr (description ++ " " ++ action)).data

/-- The processor's output on a blank fresh row entered as `21-26` (a concrete
run used to instantiate boundary facts). -/
def C3res : WOProcessor.WOResult :=
  { ATA04_Entered := "21-26", Defect_Text := "", Rectification_Text := "",
    WO_Type := "", AC_Registration := "", Open_Date := "", Close_Date := "",
    Is_Technical_Defect := true,
    Non_Defect_Reason := some "Default: no non-defect pattern found",
    Decision := "REVIEW", ATA04_Final := some "21-26",
    Confidence := some (mkRat 65 100),
    Reason := some "No citation or catalog match found" }

/-- Whether a single pattern matches at some position of `s` (the char before
`s` being `prev`): the mirror of `firstMatchAux`'s success. -/
def matchesSomewhere (r : Rx) : Option Char → List Char → Bool
  | prev, [] => !(r.run prev [] []).isEmpty
  | prev, c :: cs => !(r.run prev (c :: cs) []).isEmpty || matchesSomewhere r (some c) cs


/-- `r` can consume exactly the characters `l` (in some context). -/
def Rx.Consumes (r : Rx) (l : List Char) : Prop :=
  ∃ prev s caps t, t ∈ Rx.run r prev s caps ∧ l = s.take (s.length - t.2.1.length)

/-- Soundness predicate for a capture `(n, t)` produced while running `r`:
some group `n` inside `r` consumed the text `t`. -/
def GrpCap : Rx → Nat → String → Prop
  | .seq a b, n, t => GrpCap a n t ∨ GrpCap b n t
  | .alt a b, n, t => GrpCap a n t ∨ GrpCap b n t
  | .opt a, n, t => GrpCap a n t
  | .grp m a, n, t => (m = n ∧ ∃ l, Rx.Consumes a l ∧ t = String.mk l) ∨ GrpCap a n t
  | _, _, _ => False

/-- Groups that participate in every successful match of `r`. -/
def MustCap : Rx → Nat → Prop
  | .seq a b, n => MustCap a n ∨ MustCap b n
  | .alt a b, n => MustCap a n ∧ MustCap b n
  | .grp m a, n => m = n ∨ MustCap a n
  | _, _ => False

/-- Invariant of the accumulator of `extract_citations`: every collected
citation has a well-formed ATA04, the seen-set is exactly the collected keys,
and the keys are pairwise distinct. -/
def goodAcc (acc : List CitationExtractor.Citation × List String) : Prop :=
  (∀ c ∈ acc.1, isAta04 c.ata04 = true) ∧
  acc.2 = acc.1.map CitationExtractor.citeKey ∧ acc.2.Nodup


theorem filter_dropWhile_eq {p q : Char → Bool} (h : ∀ c, q c = true → p c = false) :
    ∀ l : List Char, (l.dropWhile q).filter p = l.filter p := by
  intro l
  induction l with
  | nil => rfl
  | cons c cs ih =>
    rw [List.dropWhile_cons]
    by_cases hq : q c = true
    · rw [if_pos hq, ih, List.filter_cons, if_neg (by simp [h c hq])]
    · rw [if_neg hq]

theorem filter_filter_eq {p q : Char → Bool} (h : ∀ c, p c = true → q c = true) :
    ∀ l : List Char, (l.filter q).filter p = l.filter p := by
  intro l
  induction l with
  | nil => rfl
  | cons c cs ih =>
    simp only [List.filter_cons]
    by_cases hp : p c = true
    · rw [if_pos (h c hp), List.filter_cons, if_pos hp, if_pos hp, ih]
    · by_cases hq : q c = true
      · rw [if_pos hq, List.filter_cons, if_neg (by simp [hp]), if_neg (by simp [hp]), ih]
      · rw [if_neg (by simp [hq]), if_neg (by simp [hp]), ih]

theorem space_not_digit : ∀ c, pyIsSpace c = true → pyIsDigit c = false := by
  intro c hc
  simp only [pyIsSpace, Bool.or_eq_true, decide_eq_true_eq] at hc
  rcases hc with ((((h | h) | h) | h) | h) | h <;> subst h <;> decide

theorem filter_pyStripL (l : List Char) :
    (pyStripL l).filter pyIsDigit = l.filter pyIsDigit := by
  unfold pyStripL
  rw [List.filter_reverse, filter_dropWhile_eq space_not_digit, List.filter_reverse,
    List.reverse_reverse, filter_dropWhile_eq space_not_digit]

theorem data_mk (l : List Char) : (String.mk l).data = l := rfl

theorem data_append (a b : String) : (a ++ b).data = a.data ++ b.data := rfl

theorem data_dash : ("-" : String).data = ['-'] := rfl

theorem digit_ne_space {c : Char} (hc : pyIsDigit c = true) : (decide ¬c = ' ') = true := by
  simp only [decide_eq_true_eq]
  intro h
  subst h
  exact absurd hc (by decide)

theorem DecisionEngine.normalize_spec (s : String) :
    DecisionEngine.normalize (some s) =
      if 4 ≤ (digitsOf s).length then
        some (String.mk ((digitsOf s).take 2) ++ "-" ++ String.mk (((digitsOf s).drop 2).take 2))
      else none := by
  unfold DecisionEngine.normalize
  dsimp only
  by_cases hs : s = ""
  · subst hs
    simp [digitsOf]
  · rw [if_neg hs]
    have hd : ((pyStrip s).data.filter fun c => decide ¬c = ' ').filter pyIsDigit = digitsOf s := by
      rw [filter_filter_eq fun c hc => digit_ne_space hc]
      exact filter_pyStripL s.data
    simp only [hd]

theorem WOProcessor.normalize_ata_spec (s : String) :
    WOProcessor.normalize_ata s =
      if 4 ≤ (digitsOf s).length then
        String.mk ((digitsOf s).take 2) ++ "-" ++ String.mk (((digitsOf s).drop 2).take 2)
      else pyStrip s := by
  unfold WOProcessor.normalize_ata
  dsimp only
  by_cases hs : s = ""
  · subst hs
    simp [digitsOf, pyStrip, pyStripL]
  · rw [if_neg hs]
    have hq : ∀ c, pyIsDigit c = true → (decide (¬c = ' ' ∧ ¬c = '-')) = true := by
      intro c hc
      simp only [decide_eq_true_eq]
      constructor <;> intro h <;> subst h <;> exact absurd hc (by decide)
    have hd : ((pyStrip s).data.filter fun c => decide (¬c = ' ' ∧ ¬c = '-')).filter
        pyIsDigit = digitsOf s := by
      rw [filter_filter_eq hq]
      exact filter_pyStripL s.data
    simp only [hd]

theorem isAta04_of_normalize {o : Option String} {t : String}
    (h : DecisionEngine.normalize o = some t) : isAta04 t = true := by
  cases o with
  | none => simp [DecisionEngine.normalize] at h
  | some s =>
    rw [DecisionEngine.normalize_spec] at h
    by_cases hl : 4 ≤ (digitsOf s).length
    · rw [if_pos hl] at h
      injection h with h
      subst h
      have hds : ∀ c ∈ digitsOf s, pyIsDigit c = true := fun c hc => List.of_mem_filter hc
      rcases hd : digitsOf s with _ | ⟨a, _ | ⟨b, _ | ⟨c, _ | ⟨d, rest⟩⟩⟩⟩ <;>
        rw [hd] at hl <;> simp at hl
      rw [hd] at hds
      have ha := hds a (by simp)
      have hb := hds b (by simp)
      have hc := hds c (by simp)
      have hd4 := hds d (by simp)
      simp [isAta04, data_append, data_mk, data_dash, List.take, ha, hb, hc, hd4]
    · rw [if_neg hl] at h
      cases h

theorem conf_ge_half (sc : Option ℚ) :
    mkRat 1 2 ≤ DecisionEngine.calculate_e2_confidence sc := by
  unfold DecisionEngine.calculate_e2_confidence
  rcases sc with _ | q
  · decide
  · dsimp only
    split_ifs <;> decide

set_option maxHeartbeats 2000000 in
theorem make_decision_shape (thr : ℚ) (e0r e1r : Option String) (v : Option Bool)
    (e2r : Option String) (sc : Option ℚ) (r : DecisionResult)
    (h : DecisionEngine.make_decision thr e0r e1r v e2r sc = .ok r) :
    (r.ata04_final = none ∨ r.ata04_final = DecisionEngine.normalize e0r ∨
      r.ata04_final = DecisionEngine.normalize e1r ∨
      r.ata04_final = DecisionEngine.normalize e2r) ∧
    mkRat 1 2 ≤ r.confidence := by
  unfold DecisionEngine.make_decision at h
  have he1 : (if v = some true then DecisionEngine.normalize e1r else none) =
      DecisionEngine.normalize e1r ∨
      (if v = some true then DecisionEngine.normalize e1r else none) = none := by
    by_cases hv : v = some true
    · exact Or.inl (if_pos hv)
    · exact Or.inr (if_neg hv)
  set e1 := (if v = some true then DecisionEngine.normalize e1r else none) with he1def
  rcases sc with _ | q <;> dsimp only at h <;> split_ifs at h
  all_goals
    first
    | exact Except.noConfusion h
    | (rw [Except.ok.injEq] at h; subst h;
       exact ⟨by rcases he1 with h1 | h1 <;> simp [h1],
              by dsimp only; first | decide | exact conf_ge_half _⟩)

/-! ## Search and alternation facts (Non-Defect Gate priority) -/

theorem firstMatchAux_isSome (r : Rx) :
    ∀ (s : List Char) (prev : Option Char) (pos : Nat),
      (firstMatchAux r prev s pos).isSome = matchesSomewhere r prev s := by
  intro s
  induction s with
  | nil =>
    intro prev pos
    rw [firstMatchAux, matchesSomewhere]
    cases hr : r.run prev [] [] <;> simp [hr]
  | cons c cs ih =>
    intro prev pos
    rw [firstMatchAux, matchesSomewhere]
    cases hr : r.run prev (c :: cs) [] <;> simp [hr, ih]

theorem run_rxAlt (l : List Rx) (prev : Option Char) (s : List Char) (caps : Caps) :
    (rxAlt l).run prev s caps = l.flatMap fun r => r.run prev s caps := by
  induction l with
  | nil => rfl
  | cons r rs ih =>
    cases rs with
    | nil => simp [rxAlt, Rx.run]
    | cons r2 rs2 =>
      rw [show rxAlt (r :: r2 :: rs2) = .alt r (rxAlt (r2 :: rs2)) from rfl]
      rw [show Rx.run (.alt r (rxAlt (r2 :: rs2))) prev s caps =
        r.run prev s caps ++ (rxAlt (r2 :: rs2)).run prev s caps from rfl, ih]
      simp

theorem matchesSomewhere_rxAlt (l : List Rx) :
    ∀ (s : List Char) (prev : Option Char),
      matchesSomewhere (rxAlt l) prev s = true ↔
        ∃ r ∈ l, matchesSomewhere r prev s = true := by
  intro s
  induction s with
  | nil =>
    intro prev
    rw [matchesSomewhere, run_rxAlt]
    simp only [Bool.not_eq_true', List.isEmpty_eq_false, ne_eq,
      List.flatMap_eq_nil_iff, not_forall]
    constructor
    · rintro ⟨r, hr, hne⟩
      refine ⟨r, hr, ?_⟩
      rw [matchesSomewhere]
      simp [hne]
    · rintro ⟨r, hr, hm⟩
      rw [matchesSomewhere] at hm
      simp only [Bool.not_eq_true', List.isEmpty_eq_false, ne_eq] at hm
      exact ⟨r, hr, by simpa using hm⟩
  | cons c cs ih =>
    intro prev
    rw [matchesSomewhere, run_rxAlt]
    simp only [Bool.or_eq_true, Bool.not_eq_true', List.isEmpty_eq_false, ne_eq,
      List.flatMap_eq_nil_iff, not_forall, ih]
    constructor
    · rintro (⟨r, hr, hne⟩ | ⟨r, hr, hm⟩)
      · refine ⟨r, hr, ?_⟩
        rw [matchesSomewhere]
        simp [hne]
      · refine ⟨r, hr, ?_⟩
        rw [matchesSomewhere]
        simp [hm]
    · rintro ⟨r, hr, hm⟩
      rw [matchesSomewhere] at hm
      simp only [Bool.or_eq_true, Bool.not_eq_true', List.isEmpty_eq_false, ne_eq] at hm
      rcases hm with hm | hm
      · exact Or.inl ⟨r, hr, by simpa using hm⟩
      · exact Or.inr ⟨r, hr, hm⟩

/-! ## Capture metatheory: what the groups of a match can contain -/

theorem plusSplits_mem {p : Char → Bool} :
    ∀ {s : List Char} {u : Char × List Char}, u ∈ plusSplits p s → u.2.length < s.length := by
  intro s
  induction s with
  | nil => intro u h; cases h
  | cons c cs ih =>
    intro u h
    rw [plusSplits] at h
    by_cases hp : p c = true
    · rw [if_pos hp] at h
      rcases List.mem_append.mp h with h | h
      · exact Nat.lt_trans (ih h) (by simp)
      · simp at h
        subst h
        simp
    · rw [if_neg hp] at h
      cases h

theorem run_caps :
    ∀ (r : Rx) (prev : Option Char) (s : List Char) (caps : Caps) (t : Option Char × List Char × Caps),
      t ∈ Rx.run r prev s caps →
      ∃ delta, t.2.2 = delta ++ caps ∧ ∀ e ∈ delta, GrpCap r e.1 e.2 := by
  intro r
  induction r with
  | fail => intro prev s caps t h; cases h
  | eps =>
    intro prev s caps t h
    rw [Rx.run] at h
    simp at h
    subst h
    exact ⟨[], by simp⟩
  | lit c =>
    intro prev s caps t h
    rcases s with _ | ⟨d, rest⟩
    · cases h
    · rw [Rx.run] at h
      split_ifs at h <;> simp at h
      subst h
      exact ⟨[], by simp⟩
  | cls p =>
    intro prev s caps t h
    rcases s with _ | ⟨d, rest⟩
    · cases h
    · rw [Rx.run] at h
      split_ifs at h <;> simp at h
      subst h
      exact ⟨[], by simp⟩
  | seq a b iha ihb =>
    intro prev s caps t h
    rw [Rx.run] at h
    rcases List.mem_flatMap.mp h with ⟨u, hu, ht⟩
    rcases iha prev s caps u hu with ⟨da, hda, hga⟩
    rcases ihb u.1 u.2.1 u.2.2 t ht with ⟨db, hdb, hgb⟩
    refine ⟨db ++ da, by rw [hdb, hda, List.append_assoc], ?_⟩
    intro e he
    rcases List.mem_append.mp he with he | he
    · exact Or.inr (hgb e he)
    · exact Or.inl (hga e he)
  | alt a b iha ihb =>
    intro prev s caps t h
    rw [Rx.run] at h
    rcases List.mem_append.mp h with h | h
    · rcases iha prev s caps t h with ⟨d, hd, hg⟩
      exact ⟨d, hd, fun e he => Or.inl (hg e he)⟩
    · rcases ihb prev s caps t h with ⟨d, hd, hg⟩
      exact ⟨d, hd, fun e he => Or.inr (hg e he)⟩
  | opt a iha =>
    intro prev s caps t h
    rw [Rx.run] at h
    rcases List.mem_append.mp h with h | h
    · rcases iha prev s caps t h with ⟨d, hd, hg⟩
      exact ⟨d, hd, hg⟩
    · simp at h
      subst h
      exact ⟨[], by simp⟩
  | starCls p =>
    intro prev s caps t h
    rw [Rx.run] at h
    rcases List.mem_append.mp h with h | h
    · rcases List.mem_map.mp h with ⟨u, _, ht⟩
      subst ht
      exact ⟨[], by simp⟩
    · simp at h
      subst h
      exact ⟨[], by simp⟩
  | plusCls p =>
    intro prev s caps t h
    rw [Rx.run] at h
    rcases List.mem_map.mp h with ⟨u, _, ht⟩
    subst ht
    exact ⟨[], by simp⟩
  | wb =>
    intro prev s caps t h
    rw [Rx.run] at h
    split_ifs at h <;> simp at h
    subst h
    exact ⟨[], by simp⟩
  | grp m a iha =>
    intro prev s caps t h
    rw [Rx.run] at h
    rcases List.mem_map.mp h with ⟨u, hu, ht⟩
    subst ht
    rcases iha prev s caps u hu with ⟨da, hda, hga⟩
    refine ⟨(m, String.mk (s.take (s.length - u.2.1.length))) :: da, by simp [hda], ?_⟩
    intro e he
    rcases List.mem_cons.mp he with he | he
    · subst he
      exact Or.inl ⟨rfl, ⟨s.take (s.length - u.2.1.length), ⟨prev, s, caps, u, hu, rfl⟩, rfl⟩⟩
    · exact Or.inr (hga e he)

theorem run_mustcap :
    ∀ (r : Rx) (n : Nat), MustCap r n →
      ∀ (prev : Option Char) (s : List Char) (caps : Caps) (t : Option Char × List Char × Caps),
        t ∈ Rx.run r prev s caps → ∃ u, (n, u) ∈ t.2.2 := by
  intro r
  induction r with
  | fail => intro n hn; cases hn
  | eps => intro n hn; cases hn
  | lit c => intro n hn; cases hn
  | cls p => intro n hn; cases hn
  | starCls p => intro n hn; cases hn
  | plusCls p => intro n hn; cases hn
  | wb => intro n hn; cases hn
  | seq a b iha ihb =>
    intro n hn prev s caps t h
    rw [Rx.run] at h
    rcases List.mem_flatMap.mp h with ⟨u, hu, ht⟩
    rcases hn with hn | hn
    · rcases iha n hn prev s caps u hu with ⟨w, hw⟩
      rcases run_caps b u.1 u.2.1 u.2.2 t ht with ⟨db, hdb, _⟩
      exact ⟨w, by rw [hdb]; exact List.mem_append_right db hw⟩
    · exact ihb n hn u.1 u.2.1 u.2.2 t ht
  | alt a b iha ihb =>
    intro n hn prev s caps t h
    rw [Rx.run] at h
    rcases List.mem_append.mp h with h | h
    · exact iha n hn.1 prev s caps t h
    · exact ihb n hn.2 prev s caps t h
  | opt a iha => intro n hn; cases hn
  | grp m a iha =>
    intro n hn prev s caps t h
    rw [Rx.run] at h
    rcases List.mem_map.mp h with ⟨u, hu, ht⟩
    subst ht
    rcases hn with hn | hn
    · subst hn
      exact ⟨String.mk (s.take (s.length - u.2.1.length)), by simp⟩
    · rcases iha n hn prev s caps u hu with ⟨w, hw⟩
      exact ⟨w, List.mem_cons_of_mem _ hw⟩

theorem plusSplits_suffix {p : Char → Bool} :
    ∀ {s : List Char} {u : Char × List Char}, u ∈ plusSplits p s → u.2 <:+ s := by
  intro s
  induction s with
  | nil => intro u h; cases h
  | cons c cs ih =>
    intro u h
    rw [plusSplits] at h
    by_cases hp : p c = true
    · rw [if_pos hp] at h
      rcases List.mem_append.mp h with h | h
      · exact (ih h).trans (List.suffix_cons c cs)
      · simp at h
        subst h
        exact List.suffix_cons c cs
    · rw [if_neg hp] at h
      cases h

theorem run_suffix :
    ∀ (r : Rx) (prev : Option Char) (s : List Char) (caps : Caps)
      (t : Option Char × List Char × Caps), t ∈ Rx.run r prev s caps → t.2.1 <:+ s := by
  intro r
  induction r with
  | fail => intro prev s caps t h; cases h
  | eps =>
    intro prev s caps t h
    rw [Rx.run] at h
    simp at h
    subst h
    exact List.suffix_rfl
  | lit c =>
    intro prev s caps t h
    rcases s with _ | ⟨d, rest⟩
    · cases h
    · rw [Rx.run] at h
      split_ifs at h <;> simp at h
      subst h
      exact List.suffix_cons d rest
  | cls p =>
    intro prev s caps t h
    rcases s with _ | ⟨d, rest⟩
    · cases h
    · rw [Rx.run] at h
      split_ifs at h <;> simp at h
      subst h
      exact List.suffix_cons d rest
  | seq a b iha ihb =>
    intro prev s caps t h
    rw [Rx.run] at h
    rcases List.mem_flatMap.mp h with ⟨u, hu, ht⟩
    exact (ihb u.1 u.2.1 u.2.2 t ht).trans (iha prev s caps u hu)
  | alt a b iha ihb =>
    intro prev s caps t h
    rw [Rx.run] at h
    rcases List.mem_append.mp h with h | h
    · exact iha prev s caps t h
    · exact ihb prev s caps t h
  | opt a iha =>
    intro prev s caps t h
    rw [Rx.run] at h
    rcases List.mem_append.mp h with h | h
    · exact iha prev s caps t h
    · simp at h
      subst h
      exact List.suffix_rfl
  | starCls p =>
    intro prev s caps t h
    rw [Rx.run] at h
    rcases List.mem_append.mp h with h | h
    · rcases List.mem_map.mp h with ⟨u, hu, ht⟩
      subst ht
      exact plusSplits_suffix hu
    · simp at h
      subst h
      exact List.suffix_rfl
  | plusCls p =>
    intro prev s caps t h
    rw [Rx.run] at h
    rcases List.mem_map.mp h with ⟨u, hu, ht⟩
    subst ht
    exact plusSplits_suffix hu
  | wb =>
    intro prev s caps t h
    rw [Rx.run] at h
    split_ifs at h <;> simp at h
    subst h
    exact List.suffix_rfl
  | grp m a iha =>
    intro prev s caps t h
    rw [Rx.run] at h
    rcases List.mem_map.mp h with ⟨u, hu, ht⟩
    subst ht
    exact iha prev s caps u hu

theorem consumes_d2 {l : List Char} (h : Rx.Consumes CitationExtractor.d2 l) :
    ∃ a b, l = [a, b] ∧ pyIsDigit a = true ∧ pyIsDigit b = true := by
  rcases h with ⟨prev, s, caps, t, ht, hl⟩
  rw [CitationExtractor.d2, CitationExtractor.dig, Rx.run] at ht
  rcases List.mem_flatMap.mp ht with ⟨u, hu, ht2⟩
  rcases s with _ | ⟨a, s1⟩
  · cases hu
  · rw [Rx.run] at hu
    split_ifs at hu with ha
    · simp at hu
      subst hu
      rcases s1 with _ | ⟨b, s2⟩
      · cases ht2
      · rw [Rx.run] at ht2
        split_ifs at ht2 with hb
        · simp at ht2
          subst ht2
          refine ⟨a, b, ?_, ha, hb⟩
          simp only [hl, List.length_cons]
          rw [show s2.length + 1 + 1 - s2.length = 2 by omega]
          rfl
        · cases ht2
    · cases hu

theorem consumes_d3 {l : List Char} (h : Rx.Consumes CitationExtractor.d3 l) :
    ∃ a b c, l = [a, b, c] ∧ pyIsDigit a = true ∧ pyIsDigit b = true ∧ pyIsDigit c = true := by
  rcases h with ⟨prev, s, caps, t, ht, hl⟩
  rw [CitationExtractor.d3, CitationExtractor.dig, Rx.run] at ht
  rcases List.mem_flatMap.mp ht with ⟨u, hu, ht2⟩
  rcases s with _ | ⟨a, s1⟩
  · cases hu
  · rw [Rx.run] at hu
    split_ifs at hu with ha
    · simp at hu
      subst hu
      rw [Rx.run] at ht2
      rcases List.mem_flatMap.mp ht2 with ⟨w, hw, ht3⟩
      rcases s1 with _ | ⟨b, s2⟩
      · cases hw
      · rw [Rx.run] at hw
        split_ifs at hw with hb
        · simp at hw
          subst hw
          rcases s2 with _ | ⟨c, s3⟩
          · cases ht3
          · rw [Rx.run] at ht3
            split_ifs at ht3 with hc
            · simp at ht3
              subst ht3
              refine ⟨a, b, c, ?_, ha, hb, hc⟩
              simp only [hl, List.length_cons]
              rw [show s3.length + 1 + 1 + 1 - s3.length = 3 by omega]
              rfl
            · cases ht3
        · cases hw
    · cases hu

theorem consumes_alt {a b : Rx} {l : List Char} (h : Rx.Consumes (.alt a b) l) :
    Rx.Consumes a l ∨ Rx.Consumes b l := by
  rcases h with ⟨prev, s, caps, t, ht, hl⟩
  rw [Rx.run] at ht
  rcases List.mem_append.mp ht with ht | ht
  · exact Or.inl ⟨prev, s, caps, t, ht, hl⟩
  · exact Or.inr ⟨prev, s, caps, t, ht, hl⟩

theorem consumes_str_head {w : String} {c0 : Char} {cs0 : List Char} (hw : w.data = c0 :: cs0)
    {l : List Char} (h : Rx.Consumes (rxStr w) l) :
    ∃ d l2, l = d :: l2 ∧ pyToLower d = pyToLower c0 := by
  rcases h with ⟨prev, s, caps, t, ht, hl⟩
  rw [rxStr, hw] at ht
  rcases cs0 with _ | ⟨c1, cs1⟩
  · rw [show ((([c0].map Rx.lit) : List Rx) = [Rx.lit c0]) from rfl] at ht
    rw [show rxCat [Rx.lit c0] = Rx.lit c0 from rfl] at ht
    rcases s with _ | ⟨d, s1⟩
    · cases ht
    · rw [Rx.run] at ht
      split_ifs at ht with hd
      · simp at ht
        subst ht
        refine ⟨d, [], ?_, hd⟩
        simp only [hl, List.length_cons]
        rw [show s1.length + 1 - s1.length = 1 by omega]
        rfl
      · cases ht
  · rw [show (((c0 :: c1 :: cs1).map Rx.lit) : List Rx) =
      Rx.lit c0 :: (c1 :: cs1).map Rx.lit from rfl] at ht
    rw [show rxCat (Rx.lit c0 :: (c1 :: cs1).map Rx.lit) =
      .seq (Rx.lit c0) (rxCat ((c1 :: cs1).map Rx.lit)) from rfl] at ht
    rw [Rx.run] at ht
    rcases List.mem_flatMap.mp ht with ⟨u, hu, ht2⟩
    rcases s with _ | ⟨d, s1⟩
    · cases hu
    · rw [Rx.run] at hu
      split_ifs at hu with hd
      · simp at hu
        subst hu
        have hsuf := run_suffix _ _ _ _ _ ht2
        have hlen : t.2.1.length ≤ s1.length := hsuf.length_le
        refine ⟨d, s1.take (s1.length - t.2.1.length), ?_, hd⟩
        simp only [hl, List.length_cons]
        rw [show s1.length + 1 - t.2.1.length = (s1.length - t.2.1.length) + 1 by omega]
        rfl
      · cases hu

theorem pyToLower_digit {c : Char} (h : pyIsDigit c = true) : pyToLower c = c := by
  simp only [pyIsDigit, Bool.and_eq_true, decide_eq_true_eq] at h
  unfold pyToLower
  rw [if_neg]
  omega

theorem consumes_manualAlt_not_digit {l : List Char}
    (h : Rx.Consumes CitationExtractor.manualAlt l) : isDigitStr (String.mk l) = false := by
  have hhead : ∃ d l2, l = d :: l2 ∧
      (pyToLower d = pyToLower 'T' ∨ pyToLower d = pyToLower 'F' ∨
        pyToLower d = pyToLower 'A') := by
    rw [CitationExtractor.manualAlt,
      show rxAlt [rxStr "TSM", rxStr "FIM", rxStr "AMM"] =
        .alt (rxStr "TSM") (.alt (rxStr "FIM") (rxStr "AMM")) from rfl] at h
    rcases consumes_alt h with h | h
    · rcases consumes_str_head (show ("TSM" : String).data = 'T' :: ['S', 'M'] from rfl) h with
        ⟨d, l2, hdl, hd⟩
      exact ⟨d, l2, hdl, Or.inl hd⟩
    · rcases consumes_alt h with h | h
      · rcases consumes_str_head (show ("FIM" : String).data = 'F' :: ['I', 'M'] from rfl) h with
          ⟨d, l2, hdl, hd⟩
        exact ⟨d, l2, hdl, Or.inr (Or.inl hd)⟩
      · rcases consumes_str_head (show ("AMM" : String).data = 'A' :: ['M', 'M'] from rfl) h with
          ⟨d, l2, hdl, hd⟩
        exact ⟨d, l2, hdl, Or.inr (Or.inr hd)⟩
  rcases hhead with ⟨d, l2, hdl, hd⟩
  have hdig : pyIsDigit d = false := by
    by_contra hcon
    rw [Bool.not_eq_false] at hcon
    have := pyToLower_digit hcon
    rcases hd with hd | hd | hd <;> rw [this] at hd <;> subst hd <;> exact absurd hcon (by decide)
  subst hdl
  simp [isDigitStr, hdig]

theorem grpCap_rxCat_lits : ∀ (l : List Char) (n : Nat) (t : String),
    GrpCap (rxCat (l.map Rx.lit)) n t ↔ False := by
  intro l
  induction l with
  | nil => intro n t; simp [rxCat, GrpCap]
  | cons c cs ih =>
    intro n t
    cases cs with
    | nil => simp [rxCat, GrpCap]
    | cons c2 cs2 =>
      rw [show ((c :: c2 :: cs2).map Rx.lit) = Rx.lit c :: (c2 :: cs2).map Rx.lit from rfl,
        show rxCat (Rx.lit c :: (c2 :: cs2).map Rx.lit) =
          .seq (Rx.lit c) (rxCat ((c2 :: cs2).map Rx.lit)) from rfl]
      simp only [GrpCap, ih, or_false, iff_false]

theorem grpCap_rxStr (w : String) (n : Nat) (t : String) : GrpCap (rxStr w) n t ↔ False :=
  grpCap_rxCat_lits w.data n t

theorem grpCap_manualAlt (n : Nat) (t : String) :
    GrpCap CitationExtractor.manualAlt n t ↔ False := by
  rw [CitationExtractor.manualAlt,
    show rxAlt [rxStr "TSM", rxStr "FIM", rxStr "AMM"] =
      .alt (rxStr "TSM") (.alt (rxStr "FIM") (rxStr "AMM")) from rfl]
  simp [GrpCap, grpCap_rxStr]

theorem mustCap_rxCat_lits : ∀ (l : List Char) (n : Nat),
    MustCap (rxCat (l.map Rx.lit)) n ↔ False := by
  intro l
  induction l with
  | nil => intro n; simp [rxCat, MustCap]
  | cons c cs ih =>
    intro n
    cases cs with
    | nil => simp [rxCat, MustCap]
    | cons c2 cs2 =>
      rw [show ((c :: c2 :: cs2).map Rx.lit) = Rx.lit c :: (c2 :: cs2).map Rx.lit from rfl,
        show rxCat (Rx.lit c :: (c2 :: cs2).map Rx.lit) =
          .seq (Rx.lit c) (rxCat ((c2 :: cs2).map Rx.lit)) from rfl]
      simp only [MustCap, ih, or_false, iff_false]

theorem mustCap_rxStr (w : String) (n : Nat) : MustCap (rxStr w) n ↔ False :=
  mustCap_rxCat_lits w.data n

theorem mustCap_manualAlt (n : Nat) : MustCap CitationExtractor.manualAlt n ↔ False := by
  rw [CitationExtractor.manualAlt,
    show rxAlt [rxStr "TSM", rxStr "FIM", rxStr "AMM"] =
      .alt (rxStr "TSM") (.alt (rxStr "FIM") (rxStr "AMM")) from rfl]
  simp [MustCap, mustCap_rxStr]

theorem firstMatchAux_from_run {r : Rx} :
    ∀ {s : List Char} {prev : Option Char} {pos i len : Nat} {caps : Caps},
      firstMatchAux r prev s pos = some (i, len, caps) →
      ∃ prev2 s2 t, t ∈ Rx.run r prev2 s2 [] ∧ caps = t.2.2 := by
  intro s
  induction s with
  | nil =>
    intro prev pos i len caps h
    rw [firstMatchAux] at h
    cases hr : (r.run prev [] []).head? with
    | none => rw [hr] at h; cases h
    | some t =>
      rw [hr] at h
      simp at h
      exact ⟨prev, [], t, List.mem_of_mem_head? hr, by rw [h.2.2]⟩
  | cons c cs ih =>
    intro prev pos i len caps h
    rw [firstMatchAux] at h
    cases hr : (r.run prev (c :: cs) []).head? with
    | none =>
      rw [hr] at h
      exact ih h
    | some t =>
      rw [hr] at h
      simp at h
      exact ⟨prev, c :: cs, t, List.mem_of_mem_head? hr, by rw [h.2.2]⟩

theorem finditerAux_from_run {r : Rx} :
    ∀ (fuel : Nat) (prev : Option Char) (s : List Char) (pos : Nat) (m : Nat × Nat × Caps),
      m ∈ finditerAux r fuel prev s pos →
      ∃ prev2 s2 t, t ∈ Rx.run r prev2 s2 [] ∧ m.2.2 = t.2.2 := by
  intro fuel
  induction fuel with
  | zero => intro prev s pos m hm; cases hm
  | succ fuel ih =>
    intro prev s pos m hm
    rw [finditerAux] at hm
    rcases hf : firstMatchAux r prev s pos with _ | ⟨⟨i, len, caps⟩⟩
    · rw [hf] at hm
      cases hm
    · rw [hf] at hm
      rcases List.mem_cons.mp hm with hm | hm
      · obtain ⟨p2, s2, t, ht, hc⟩ := firstMatchAux_from_run hf
        exact ⟨p2, s2, t, ht, by rw [hm]; exact hc⟩
      · exact ih _ _ _ m hm

theorem finditer_from_run {r : Rx} {cs : List Char} {m : Nat × Nat × Caps}
    (hm : m ∈ finditer r cs) :
    ∃ prev s t, t ∈ Rx.run r prev s [] ∧ m.2.2 = t.2.2 :=
  finditerAux_from_run _ _ _ _ _ hm

theorem grpCap_pattern1 {n : Nat} {t : String} (h : GrpCap CitationExtractor.pattern1 n t) :
    (n = 1 ∧ ∃ l, Rx.Consumes CitationExtractor.manualAlt l ∧ t = String.mk l) ∨
    ((n = 2 ∨ n = 3 ∨ n = 4) ∧ ∃ l, Rx.Consumes CitationExtractor.d2 l ∧ t = String.mk l) ∨
    ((n = 5 ∨ n = 6) ∧ ∃ l, Rx.Consumes CitationExtractor.d3 l ∧ t = String.mk l) := by
  rw [CitationExtractor.pattern1] at h
  simp only [rxCat, GrpCap, grpCap_manualAlt, grpCap_rxStr, or_false, false_or,
    CitationExtractor.dash, CitationExtractor.wss] at h
  rcases h with ⟨h1, h⟩ | ⟨h1, h⟩ | ⟨h1, h⟩ | ⟨h1, h⟩ | ⟨h1, h⟩ | ⟨h1, h⟩ <;> subst h1
  · exact Or.inl ⟨rfl, h⟩
  · exact Or.inr (Or.inl ⟨Or.inl rfl, h⟩)
  · exact Or.inr (Or.inl ⟨Or.inr (Or.inl rfl), h⟩)
  · exact Or.inr (Or.inl ⟨Or.inr (Or.inr rfl), h⟩)
  · exact Or.inr (Or.inr ⟨Or.inl rfl, h⟩)
  · exact Or.inr (Or.inr ⟨Or.inr rfl, h⟩)

theorem grpCap_kwAlt (n : Nat) (t : String) :
    GrpCap (rxAlt [rxStr "task", rxStr "ref", rxStr "reference"]) n t ↔ False := by
  rw [show rxAlt [rxStr "task", rxStr "ref", rxStr "reference"] =
    .alt (rxStr "task") (.alt (rxStr "ref") (rxStr "reference")) from rfl]
  simp [GrpCap, grpCap_rxStr]

theorem mustCap_kwAlt (n : Nat) :
    MustCap (rxAlt [rxStr "task", rxStr "ref", rxStr "reference"]) n ↔ False := by
  rw [show rxAlt [rxStr "task", rxStr "ref", rxStr "reference"] =
    .alt (rxStr "task") (.alt (rxStr "ref") (rxStr "reference")) from rfl]
  simp [MustCap, mustCap_rxStr]

theorem grpCap_pattern2 {n : Nat} {t : String} (h : GrpCap CitationExtractor.pattern2 n t) :
    (n = 1 ∧ ∃ l, Rx.Consumes CitationExtractor.manualAlt l ∧ t = String.mk l) ∨
    ((n = 2 ∨ n = 3 ∨ n = 4) ∧ ∃ l, Rx.Consumes CitationExtractor.d2 l ∧ t = String.mk l) ∨
    ((n = 5 ∨ n = 6) ∧ ∃ l, Rx.Consumes CitationExtractor.d3 l ∧ t = String.mk l) := by
  rw [CitationExtractor.pattern2] at h
  simp only [rxCat, GrpCap, grpCap_manualAlt, grpCap_rxStr, or_false, false_or,
    CitationExtractor.dash] at h
  rcases h with ⟨h1, h⟩ | ⟨h1, h⟩ | ⟨h1, h⟩ | ⟨h1, h⟩ | ⟨h1, h⟩ | ⟨h1, h⟩ <;> subst h1
  · exact Or.inl ⟨rfl, h⟩
  · exact Or.inr (Or.inl ⟨Or.inl rfl, h⟩)
  · exact Or.inr (Or.inl ⟨Or.inr (Or.inl rfl), h⟩)
  · exact Or.inr (Or.inl ⟨Or.inr (Or.inr rfl), h⟩)
  · exact Or.inr (Or.inr ⟨Or.inl rfl, h⟩)
  · exact Or.inr (Or.inr ⟨Or.inr rfl, h⟩)

theorem grpCap_pattern3 {n : Nat} {t : String} (h : GrpCap CitationExtractor.pattern3 n t) :
    ((n = 1 ∨ n = 2 ∨ n = 3) ∧ ∃ l, Rx.Consumes CitationExtractor.d2 l ∧ t = String.mk l) ∨
    ((n = 4 ∨ n = 5) ∧ ∃ l, Rx.Consumes CitationExtractor.d3 l ∧ t = String.mk l) := by
  rw [CitationExtractor.pattern3] at h
  simp only [rxCat, GrpCap, or_false, false_or, CitationExtractor.dash] at h
  rcases h with ⟨h1, h⟩ | ⟨h1, h⟩ | ⟨h1, h⟩ | ⟨h1, h⟩ | ⟨h1, h⟩ <;> subst h1
  · exact Or.inl ⟨Or.inl rfl, h⟩
  · exact Or.inl ⟨Or.inr (Or.inl rfl), h⟩
  · exact Or.inl ⟨Or.inr (Or.inr rfl), h⟩
  · exact Or.inr ⟨Or.inl rfl, h⟩
  · exact Or.inr ⟨Or.inr rfl, h⟩

theorem grpCap_pattern4 {n : Nat} {t : String} (h : GrpCap CitationExtractor.pattern4 n t) :
    (n = 1 ∧ ∃ l, Rx.Consumes CitationExtractor.manualAlt l ∧ t = String.mk l) ∨
    ((n = 2 ∨ n = 3 ∨ n = 4) ∧ ∃ l, Rx.Consumes CitationExtractor.d2 l ∧ t = String.mk l) := by
  rw [CitationExtractor.pattern4] at h
  simp only [rxCat, GrpCap, grpCap_manualAlt, grpCap_rxStr, grpCap_kwAlt, or_false, false_or,
    CitationExtractor.dash, CitationExtractor.wss] at h
  rcases h with ⟨h1, h⟩ | ⟨h1, h⟩ | ⟨h1, h⟩ | ⟨h1, h⟩ <;> subst h1
  · exact Or.inl ⟨rfl, h⟩
  · exact Or.inr ⟨Or.inl rfl, h⟩
  · exact Or.inr ⟨Or.inr (Or.inl rfl), h⟩
  · exact Or.inr ⟨Or.inr (Or.inr rfl), h⟩

theorem mustCap_pattern1_2 : MustCap CitationExtractor.pattern1 2 := by
  simp [CitationExtractor.pattern1, rxCat, MustCap, mustCap_manualAlt, mustCap_rxStr]

theorem mustCap_pattern1_3 : MustCap CitationExtractor.pattern1 3 := by
  simp [CitationExtractor.pattern1, rxCat, MustCap, mustCap_manualAlt, mustCap_rxStr]

theorem mustCap_pattern2_2 : MustCap CitationExtractor.pattern2 2 := by
  simp [CitationExtractor.pattern2, rxCat, MustCap, mustCap_manualAlt, mustCap_rxStr]

theorem mustCap_pattern2_3 : MustCap CitationExtractor.pattern2 3 := by
  simp [CitationExtractor.pattern2, rxCat, MustCap, mustCap_manualAlt, mustCap_rxStr]

theorem mustCap_pattern3_1 : MustCap CitationExtractor.pattern3 1 := by
  simp [CitationExtractor.pattern3, rxCat, MustCap]

theorem mustCap_pattern3_2 : MustCap CitationExtractor.pattern3 2 := by
  simp [CitationExtractor.pattern3, rxCat, MustCap]

theorem mustCap_pattern4_2 : MustCap CitationExtractor.pattern4 2 := by
  simp [CitationExtractor.pattern4, rxCat, MustCap, mustCap_manualAlt, mustCap_rxStr,
    mustCap_kwAlt]

theorem mustCap_pattern4_3 : MustCap CitationExtractor.pattern4 3 := by
  simp [CitationExtractor.pattern4, rxCat, MustCap, mustCap_manualAlt, mustCap_rxStr,
    mustCap_kwAlt]

theorem find?_grp {caps : Caps} {P : Nat → String → Prop}
    (hs : ∀ e ∈ caps, P e.1 e.2) (k : Nat) :
    ∀ {t}, ((caps.find? fun e => e.1 = k).map Prod.snd) = some t → P k t := by
  intro t ht
  rcases hf : caps.find? fun e => e.1 = k with _ | ⟨e⟩
  · rw [hf] at ht
    cases ht
  · rw [hf] at ht
    simp only [Option.map_some', Option.some.injEq] at ht
    have hmem := List.mem_of_find?_eq_some hf
    have hp := List.find?_some hf
    simp only [decide_eq_true_eq] at hp
    have hPe := hs e hmem
    rw [hp, ht] at hPe
    exact hPe

theorem find?_present {caps : Caps} {k : Nat} (h : ∃ u, (k, u) ∈ caps) :
    ∃ t, ((caps.find? fun e => e.1 = k).map Prod.snd) = some t := by
  rcases h with ⟨u, hu⟩
  rcases hf : caps.find? fun e => e.1 = k with _ | ⟨e⟩
  · rw [List.find?_eq_none] at hf
    exact absurd (hf (k, u) hu) (by simp)
  · exact ⟨e.2, by rw [hf]; rfl⟩

theorem groupsOf_six (caps : Caps) :
    groupsOf caps 6 =
      [(caps.find? fun e => e.1 = 1).map Prod.snd, (caps.find? fun e => e.1 = 2).map Prod.snd,
       (caps.find? fun e => e.1 = 3).map Prod.snd, (caps.find? fun e => e.1 = 4).map Prod.snd,
       (caps.find? fun e => e.1 = 5).map Prod.snd, (caps.find? fun e => e.1 = 6).map Prod.snd] := by
  simp [groupsOf, List.range_succ]

theorem groupsOf_five (caps : Caps) :
    groupsOf caps 5 =
      [(caps.find? fun e => e.1 = 1).map Prod.snd, (caps.find? fun e => e.1 = 2).map Prod.snd,
       (caps.find? fun e => e.1 = 3).map Prod.snd, (caps.find? fun e => e.1 = 4).map Prod.snd,
       (caps.find? fun e => e.1 = 5).map Prod.snd] := by
  simp [groupsOf, List.range_succ]

theorem groupsOf_four (caps : Caps) :
    groupsOf caps 4 =
      [(caps.find? fun e => e.1 = 1).map Prod.snd, (caps.find? fun e => e.1 = 2).map Prod.snd,
       (caps.find? fun e => e.1 = 3).map Prod.snd, (caps.find? fun e => e.1 = 4).map Prod.snd] := by
  simp [groupsOf, List.range_succ]

theorem parse_match_ata04 {groups : List (Option String)} {raw : String}
    {c : CitationExtractor.Citation} {t2 t3 : String} {rest : List String}
    (hnum : (groups.filterMap id).filter isDigitStr = t2 :: t3 :: rest)
    (hp : CitationExtractor.parse_match groups raw = some c) :
    c.ata04 = t2 ++ "-" ++ t3 := by
  unfold CitationExtractor.parse_match at hp
  rw [hnum] at hp
  simp only [Option.some.injEq] at hp
  rw [← hp]

theorem numeric_shape_manual {G1 G4 G5 G6 : Option String} {t2 t3 : String}
    (h1 : ∀ x, G1 = some x → isDigitStr x = false)
    (h2 : isDigitStr t2 = true) (h3 : isDigitStr t3 = true) :
    (([G1, some t2, some t3, G4, G5, G6].filterMap id).filter isDigitStr) =
      t2 :: t3 :: (([G4, G5, G6].filterMap id).filter isDigitStr) := by
  rcases hG1 : G1 with _ | ⟨t1⟩
  · simp only [List.filterMap_cons, id, List.filter_cons, h2, h3, if_pos]
  · have := h1 t1 hG1
    simp only [List.filterMap_cons, id, List.filter_cons, h2, h3, this, if_pos]
    rw [if_neg (by simp [this])]

theorem numeric_shape_digits {G3 G4 G5 : Option String} {t1 t2 : String}
    (h1 : isDigitStr t1 = true) (h2 : isDigitStr t2 = true) :
    (([some t1, some t2, G3, G4, G5].filterMap id).filter isDigitStr) =
      t1 :: t2 :: (([G3, G4, G5].filterMap id).filter isDigitStr) := by
  simp only [List.filterMap_cons, id, List.filter_cons, h1, h2, if_pos]

theorem numeric_shape_manual4 {G1 G4 : Option String} {t2 t3 : String}
    (h1 : ∀ x, G1 = some x → isDigitStr x = false)
    (h2 : isDigitStr t2 = true) (h3 : isDigitStr t3 = true) :
    (([G1, some t2, some t3, G4].filterMap id).filter isDigitStr) =
      t2 :: t3 :: (([G4].filterMap id).filter isDigitStr) := by
  rcases hG1 : G1 with _ | ⟨t1⟩
  · simp only [List.filterMap_cons, id, List.filter_cons, h2, h3, if_pos]
  · have := h1 t1 hG1
    simp only [List.filterMap_cons, id, List.filter_cons, h2, h3, this, if_pos]
    rw [if_neg (by simp [this])]

theorem d2cap_shape {t : String} (h : ∃ l, Rx.Consumes CitationExtractor.d2 l ∧ t = String.mk l) :
    isDigitStr t = true ∧
      ∃ a b, t = String.mk [a, b] ∧ pyIsDigit a = true ∧ pyIsDigit b = true := by
  rcases h with ⟨l, hc, ht⟩
  rcases consumes_d2 hc with ⟨a, b, hl, ha, hb⟩
  subst hl
  subst ht
  exact ⟨by simp [isDigitStr, ha, hb], a, b, rfl, ha, hb⟩

theorem isAta04_of_parts {t2 t3 : String} {a b d e : Char}
    (h2 : t2 = String.mk [a, b]) (h3 : t3 = String.mk [d, e])
    (ha : pyIsDigit a = true) (hb : pyIsDigit b = true)
    (hd : pyIsDigit d = true) (he : pyIsDigit e = true) :
    isAta04 (t2 ++ "-" ++ t3) = true := by
  subst h2
  subst h3
  simp [isAta04, data_append, data_mk, data_dash, ha, hb, hd, he]

theorem pattern1_parse_wf {cs : List Char} {m : Nat × Nat × Caps}
    {c : CitationExtractor.Citation}
    (hm : m ∈ finditer CitationExtractor.pattern1 cs)
    (hp : CitationExtractor.parse_match (groupsOf m.2.2 6) (matchText cs m.1 m.2.1) = some c) :
    isAta04 c.ata04 = true := by
  obtain ⟨prev, s, t, ht, hcaps⟩ := finditer_from_run hm
  have hsound : ∀ e ∈ m.2.2, GrpCap CitationExtractor.pattern1 e.1 e.2 := by
    obtain ⟨delta, hd, hg⟩ := run_caps _ _ _ _ _ ht
    intro e he
    rw [hcaps, hd] at he
    simp only [List.append_nil] at he
    exact hg e he
  have h2p : ∃ u, (2, u) ∈ m.2.2 := by
    rw [hcaps]
    exact run_mustcap _ 2 mustCap_pattern1_2 _ _ _ _ ht
  have h3p : ∃ u, (3, u) ∈ m.2.2 := by
    rw [hcaps]
    exact run_mustcap _ 3 mustCap_pattern1_3 _ _ _ _ ht
  obtain ⟨t2, hG2⟩ := find?_present h2p
  obtain ⟨t3, hG3⟩ := find?_present h3p
  have hd2 : ∃ l, Rx.Consumes CitationExtractor.d2 l ∧ t2 = String.mk l := by
    rcases grpCap_pattern1 (find?_grp hsound 2 hG2) with ⟨h, _⟩ | ⟨_, h⟩ | ⟨h, _⟩
    · exact absurd h (by decide)
    · exact h
    · rcases h with h | h <;> exact absurd h (by decide)
  have hd3 : ∃ l, Rx.Consumes CitationExtractor.d2 l ∧ t3 = String.mk l := by
    rcases grpCap_pattern1 (find?_grp hsound 3 hG3) with ⟨h, _⟩ | ⟨_, h⟩ | ⟨h, _⟩
    · exact absurd h (by decide)
    · exact h
    · rcases h with h | h <;> exact absurd h (by decide)
  obtain ⟨hds2, a, b, ht2, ha, hb⟩ := d2cap_shape hd2
  obtain ⟨hds3, d, e, ht3, hd', he'⟩ := d2cap_shape hd3
  have hG1 : ∀ x, ((m.2.2.find? fun e => e.1 = 1).map Prod.snd) = some x →
      isDigitStr x = false := by
    intro x hx
    rcases grpCap_pattern1 (find?_grp hsound 1 hx) with ⟨_, h⟩ | ⟨h, _⟩ | ⟨h, _⟩
    · rcases h with ⟨l, hc, hxl⟩
      rw [hxl]
      exact consumes_manualAlt_not_digit hc
    · rcases h with h | h | h <;> exact absurd h (by decide)
    · rcases h with h | h <;> exact absurd h (by decide)
  rw [groupsOf_six, hG2, hG3] at hp
  have hnum := @numeric_shape_manual _ ((m.2.2.find? fun e => e.1 = 4).map Prod.snd)
    ((m.2.2.find? fun e => e.1 = 5).map Prod.snd)
    ((m.2.2.find? fun e => e.1 = 6).map Prod.snd) _ _ hG1 hds2 hds3
  rw [parse_match_ata04 hnum hp]
  exact isAta04_of_parts ht2 ht3 ha hb hd' he'

theorem pattern2_parse_wf {cs : List Char} {m : Nat × Nat × Caps}
    {c : CitationExtractor.Citation}
    (hm : m ∈ finditer CitationExtractor.pattern2 cs)
    (hp : CitationExtractor.parse_match (groupsOf m.2.2 6) (matchText cs m.1 m.2.1) = some c) :
    isAta04 c.ata04 = true := by
  obtain ⟨prev, s, t, ht, hcaps⟩ := finditer_from_run hm
  have hsound : ∀ e ∈ m.2.2, GrpCap CitationExtractor.pattern2 e.1 e.2 := by
    obtain ⟨delta, hd, hg⟩ := run_caps _ _ _ _ _ ht
    intro e he
    rw [hcaps, hd] at he
    simp only [List.append_nil] at he
    exact hg e he
  have h2p : ∃ u, (2, u) ∈ m.2.2 := by
    rw [hcaps]
    exact run_mustcap _ 2 mustCap_pattern2_2 _ _ _ _ ht
  have h3p : ∃ u, (3, u) ∈ m.2.2 := by
    rw [hcaps]
    exact run_mustcap _ 3 mustCap_pattern2_3 _ _ _ _ ht
  obtain ⟨t2, hG2⟩ := find?_present h2p
  obtain ⟨t3, hG3⟩ := find?_present h3p
  have hd2 : ∃ l, Rx.Consumes CitationExtractor.d2 l ∧ t2 = String.mk l := by
    rcases grpCap_pattern2 (find?_grp hsound 2 hG2) with ⟨h, _⟩ | ⟨_, h⟩ | ⟨h, _⟩
    · exact absurd h (by decide)
    · exact h
    · rcases h with h | h <;> exact absurd h (by decide)
  have hd3 : ∃ l, Rx.Consumes CitationExtractor.d2 l ∧ t3 = String.mk l := by
    rcases grpCap_pattern2 (find?_grp hsound 3 hG3) with ⟨h, _⟩ | ⟨_, h⟩ | ⟨h, _⟩
    · exact absurd h (by decide)
    · exact h
    · rcases h with h | h <;> exact absurd h (by decide)
  obtain ⟨hds2, a, b, ht2, ha, hb⟩ := d2cap_shape hd2
  obtain ⟨hds3, d, e, ht3, hd', he'⟩ := d2cap_shape hd3
  have hG1 : ∀ x, ((m.2.2.find? fun e => e.1 = 1).map Prod.snd) = some x →
      isDigitStr x = false := by
    intro x hx
    rcases grpCap_pattern2 (find?_grp hsound 1 hx) with ⟨_, h⟩ | ⟨h, _⟩ | ⟨h, _⟩
    · rcases h with ⟨l, hc, hxl⟩
      rw [hxl]
      exact consumes_manualAlt_not_digit hc
    · rcases h with h | h | h <;> exact absurd h (by decide)
    · rcases h with h | h <;> exact absurd h (by decide)
  rw [groupsOf_six, hG2, hG3] at hp
  have hnum := @numeric_shape_manual _ ((m.2.2.find? fun e => e.1 = 4).map Prod.snd)
    ((m.2.2.find? fun e => e.1 = 5).map Prod.snd)
    ((m.2.2.find? fun e => e.1 = 6).map Prod.snd) _ _ hG1 hds2 hds3
  rw [parse_match_ata04 hnum hp]
  exact isAta04_of_parts ht2 ht3 ha hb hd' he'

theorem pattern3_parse_wf {cs : List Char} {m : Nat × Nat × Caps}
    {c : CitationExtractor.Citation}
    (hm : m ∈ finditer CitationExtractor.pattern3 cs)
    (hp : CitationExtractor.parse_match (groupsOf m.2.2 5) (matchText cs m.1 m.2.1) = some c) :
    isAta04 c.ata04 = true := by
  obtain ⟨prev, s, t, ht, hcaps⟩ := finditer_from_run hm
  have hsound : ∀ e ∈ m.2.2, GrpCap CitationExtractor.pattern3 e.1 e.2 := by
    obtain ⟨delta, hd, hg⟩ := run_caps _ _ _ _ _ ht
    intro e he
    rw [hcaps, hd] at he
    simp only [List.append_nil] at he
    exact hg e he
  have h1p : ∃ u, (1, u) ∈ m.2.2 := by
    rw [hcaps]
    exact run_mustcap _ 1 mustCap_pattern3_1 _ _ _ _ ht
  have h2p : ∃ u, (2, u) ∈ m.2.2 := by
    rw [hcaps]
    exact run_mustcap _ 2 mustCap_pattern3_2 _ _ _ _ ht
  obtain ⟨t1, hG1⟩ := find?_present h1p
  obtain ⟨t2, hG2⟩ := find?_present h2p
  have hd1 : ∃ l, Rx.Consumes CitationExtractor.d2 l ∧ t1 = String.mk l := by
    rcases grpCap_pattern3 (find?_grp hsound 1 hG1) with ⟨_, h⟩ | ⟨h, _⟩
    · exact h
    · rcases h with h | h <;> exact absurd h (by decide)
  have hd2 : ∃ l, Rx.Consumes CitationExtractor.d2 l ∧ t2 = String.mk l := by
    rcases grpCap_pattern3 (find?_grp hsound 2 hG2) with ⟨_, h⟩ | ⟨h, _⟩
    · exact h
    · rcases h with h | h <;> exact absurd h (by decide)
  obtain ⟨hds1, a, b, ht1, ha, hb⟩ := d2cap_shape hd1
  obtain ⟨hds2, d, e, ht2, hd', he'⟩ := d2cap_shape hd2
  rw [groupsOf_five, hG1, hG2] at hp
  have hnum := @numeric_shape_digits ((m.2.2.find? fun e => e.1 = 3).map Prod.snd)
    ((m.2.2.find? fun e => e.1 = 4).map Prod.snd)
    ((m.2.2.find? fun e => e.1 = 5).map Prod.snd) _ _ hds1 hds2
  rw [parse_match_ata04 hnum hp]
  exact isAta04_of_parts ht1 ht2 ha hb hd' he'

theorem pattern4_parse_wf {cs : List Char} {m : Nat × Nat × Caps}
    {c : CitationExtractor.Citation}
    (hm : m ∈ finditer CitationExtractor.pattern4 cs)
    (hp : CitationExtractor.parse_match (groupsOf m.2.2 4) (matchText cs m.1 m.2.1) = some c) :
    isAta04 c.ata04 = true := by
  obtain ⟨prev, s, t, ht, hcaps⟩ := finditer_from_run hm
  have hsound : ∀ e ∈ m.2.2, GrpCap CitationExtractor.pattern4 e.1 e.2 := by
    obtain ⟨delta, hd, hg⟩ := run_caps _ _ _ _ _ ht
    intro e he
    rw [hcaps, hd] at he
    simp only [List.append_nil] at he
    exact hg e he
  have h2p : ∃ u, (2, u) ∈ m.2.2 := by
    rw [hcaps]
    exact run_mustcap _ 2 mustCap_pattern4_2 _ _ _ _ ht
  have h3p : ∃ u, (3, u) ∈ m.2.2 := by
    rw [hcaps]
    exact run_mustcap _ 3 mustCap_pattern4_3 _ _ _ _ ht
  obtain ⟨t2, hG2⟩ := find?_present h2p
  obtain ⟨t3, hG3⟩ := find?_present h3p
  have hd2 : ∃ l, Rx.Consumes CitationExtractor.d2 l ∧ t2 = String.mk l := by
    rcases grpCap_pattern4 (find?_grp hsound 2 hG2) with ⟨h, _⟩ | ⟨_, h⟩
    · exact absurd h (by decide)
    · exact h
  have hd3 : ∃ l, Rx.Consumes CitationExtractor.d2 l ∧ t3 = String.mk l := by
    rcases grpCap_pattern4 (find?_grp hsound 3 hG3) with ⟨h, _⟩ | ⟨_, h⟩
    · exact absurd h (by decide)
    · exact h
  obtain ⟨hds2, a, b, ht2, ha, hb⟩ := d2cap_shape hd2
  obtain ⟨hds3, d, e, ht3, hd', he'⟩ := d2cap_shape hd3
  have hG1 : ∀ x, ((m.2.2.find? fun e => e.1 = 1).map Prod.snd) = some x →
      isDigitStr x = false := by
    intro x hx
    rcases grpCap_pattern4 (find?_grp hsound 1 hx) with ⟨_, h⟩ | ⟨h, _⟩
    · rcases h with ⟨l, hc, hxl⟩
      rw [hxl]
      exact consumes_manualAlt_not_digit hc
    · rcases h with h | h | h <;> exact absurd h (by decide)
  rw [groupsOf_four, hG2, hG3] at hp
  have hnum := @numeric_shape_manual4 _ ((m.2.2.find? fun e => e.1 = 4).map Prod.snd)
    _ _ hG1 hds2 hds3
  rw [parse_match_ata04 hnum hp]
  exact isAta04_of_parts ht2 ht3 ha hb hd' he'

theorem addMatch_good {pat : Rx × Nat} {cs : List Char}
    {acc : List CitationExtractor.Citation × List String} {m : Nat × Nat × Caps}
    (hpat : pat ∈ CitationExtractor.compiled_patterns)
    (hm : m ∈ finditer pat.1 cs) (h : goodAcc acc) :
    goodAcc (CitationExtractor.addMatch pat cs acc m) := by
  unfold CitationExtractor.addMatch
  rcases hp : CitationExtractor.parse_match (groupsOf m.2.2 pat.2)
      (matchText cs m.1 m.2.1) with _ | ⟨c⟩
  · exact h
  · dsimp only
    by_cases hk : CitationExtractor.citeKey c ∈ acc.2
    · rw [if_pos hk]
      exact h
    · rw [if_neg hk]
      have hwf : isAta04 c.ata04 = true := by
        simp only [CitationExtractor.compiled_patterns, List.mem_cons,
          List.mem_singleton] at hpat
        rcases hpat with h4 | h4 | h4 | h4 | h4
        · subst h4
          exact pattern1_parse_wf hm hp
        · subst h4
          exact pattern2_parse_wf hm hp
        · subst h4
          exact pattern3_parse_wf hm hp
        · subst h4
          exact pattern4_parse_wf hm hp
        · cases h4
      refine ⟨?_, ?_, ?_⟩
      · intro x hx
        rcases List.mem_append.mp hx with hx | hx
        · exact h.1 x hx
        · simp at hx
          subst hx
          exact hwf
      · rw [h.2.1, List.map_append]
        rfl
      · rw [List.nodup_append]
        exact ⟨h.2.2, List.nodup_singleton _, by simp [hk]⟩

theorem foldl_addMatch_good {pat : Rx × Nat} {cs : List Char}
    (hpat : pat ∈ CitationExtractor.compiled_patterns) :
    ∀ (ms : List (Nat × Nat × Caps)) (acc : List CitationExtractor.Citation × List String),
      (∀ m ∈ ms, m ∈ finditer pat.1 cs) → goodAcc acc →
      goodAcc (ms.foldl (CitationExtractor.addMatch pat cs) acc) := by
  intro ms
  induction ms with
  | nil => intro acc _ h; exact h
  | cons m ms ih =>
    intro acc hall h
    rw [List.foldl_cons]
    exact ih _ (fun x hx => hall x (List.mem_cons_of_mem _ hx))
      (addMatch_good hpat (hall m (List.mem_cons_self _ _)) h)

theorem pats_foldl_good {cs : List Char} :
    ∀ (pats : List (Rx × Nat)), (∀ p ∈ pats, p ∈ CitationExtractor.compiled_patterns) →
      ∀ (acc : List CitationExtractor.Citation × List String), goodAcc acc →
      goodAcc (pats.foldl
        (fun acc pat => (finditer pat.1 cs).foldl (CitationExtractor.addMatch pat cs) acc) acc) := by
  intro pats
  induction pats with
  | nil => intro _ acc h; exact h
  | cons p ps ih =>
    intro hall acc h
    rw [List.foldl_cons]
    exact ih (fun x hx => hall x (List.mem_cons_of_mem _ hx)) _
      (foldl_addMatch_good (hall p (List.mem_cons_self _ _)) _ _ (fun m hm => hm) h)

theorem extract_citations_good (text : String) :
    (∀ c ∈ CitationExtractor.extract_citations text, isAta04 c.ata04 = true) ∧
    ((CitationExtractor.extract_citations text).map CitationExtractor.citeKey).Nodup := by
  unfold CitationExtractor.extract_citations
  split_ifs
  · simp
  · have hg := @pats_foldl_good text.data CitationExtractor.compiled_patterns
      (fun p hp => hp) ([], []) ⟨by simp, by simp, by simp⟩
    exact ⟨hg.1, hg.2.1 ▸ hg.2.2⟩

/-- Claim C5: for every work order classified non-defect by the gate while
filtering is enabled (and not served from the cache), the pipeline
short-circuits: verdict `NON_DEFECT`, final code equal to the normalized
entered code, confidence 0.99, reason derived from the gate's matched phrase,
and all citation (E1) and catalog (E2) fields left absent because those phases
are skipped entirely. -/
theorem C5_non_defect_short_circuit (cfg : WOProcessor.Cfg) (cache : WOProcessor.Cache)
    (wo : WOProcessor.WOInput) (reason : String)
    (hf : cfg.filter_non_defect = true)
    (hc : (cache.find? fun e =>
      e.1 = WOProcessor.get_cache_key wo.Defect_Text wo.Rectification_Text) = none)
    (hg : NonDefectFilter.is_technical_defect wo.Defect_Text wo.Rectification_Text =
      (false, reason)) :
    ∃ res st, WOProcessor.process_wo cfg cache wo = .ok (res, st) ∧
      res.Decision = "NON_DEFECT" ∧
      res.ATA04_Final = some (WOProcessor.normalize_ata wo.ATA04_Entered) ∧
      res.Confidence = some (mkRat 99 100) ∧
      res.Reason = some ("Non-technical: " ++ reason) ∧
      res.Is_Technical_Defect = false ∧
      res.ATA04_From_Cited = none ∧ res.Cited_Manual = none ∧ res.Cited_Task = none ∧
      res.Cited_Exists = none ∧ res.ATA04_Derived = none ∧ res.Derived_Score = none ∧
      res.Derived_DocType = none ∧ res.Evidence_Snippet = none ∧
      res.Evidence_Source = none := by
  unfold WOProcessor.process_wo
  dsimp only
  rw [hc]
  dsimp only [Option.map_none']
  rw [hg, hf]
  dsimp only
  simp only [if_pos rfl, if_pos (And.intro rfl rfl)]
  exact ⟨_, _, rfl, rfl, rfl, rfl, rfl, rfl, rfl, rfl, rfl, rfl, rfl, rfl, rfl, rfl, rfl⟩

theorem ok_final_shape {thr : ℚ} {e0r e1r : Option String} {v : Option Bool}
    {e2r : Option String} {sc : Option ℚ} {d : DecisionResult}
    (heq : DecisionEngine.make_decision thr e0r e1r v e2r sc = .ok d) :
    d.ata04_final = none ∨ ∃ s, d.ata04_final = some s ∧ isAta04 s = true := by
  rcases (make_decision_shape _ _ _ _ _ _ _ heq).1 with hfin | hfin | hfin | hfin
  · exact Or.inl hfin
  · rcases hn : DecisionEngine.normalize e0r with _ | ⟨t⟩
    · exact Or.inl (hn ▸ hfin)
    · exact Or.inr ⟨t, hn ▸ hfin, isAta04_of_normalize hn⟩
  · rcases hn : DecisionEngine.normalize e1r with _ | ⟨t⟩
    · exact Or.inl (hn ▸ hfin)
    · exact Or.inr ⟨t, hn ▸ hfin, isAta04_of_normalize hn⟩
  · rcases hn : DecisionEngine.normalize e2r with _ | ⟨t⟩
    · exact Or.inl (hn ▸ hfin)
    · exact Or.inr ⟨t, hn ▸ hfin, isAta04_of_normalize hn⟩

/-- Claim C3 (amended): on a fresh (cache-miss) row, the cited ATA04 is absent
or matches `^\d{2}-\d{2}$`, and whenever the decision engine produces the
final code (every fresh outcome other than the `NON_DEFECT` short-circuit) the
final ATA04 is absent or matches; but the entered ATA exposed on the result is
exactly `_normalize_ata` of the raw input, which falls back to the raw stripped
string (see the counterexample), and the derived ATA04 is the catalog
collaborator's value passed through unvalidated. -/
theorem C3_ata_boundary_amended (cfg : WOProcessor.Cfg) (cache : WOProcessor.Cache)
    (wo : WOProcessor.WOInput) (res : WOProcessor.WOResult) (st : WOProcessor.Cache)
    (hc : (cache.find? fun e =>
      e.1 = WOProcessor.get_cache_key wo.Defect_Text wo.Rectification_Text) = none)
    (h : WOProcessor.process_wo cfg cache wo = .ok (res, st)) :
    (res.ATA04_From_Cited = none ∨
      ∃ s, res.ATA04_From_Cited = some s ∧ isAta04 s = true) ∧
    (res.Decision ≠ "NON_DEFECT" →
      res.ATA04_Final = none ∨ ∃ s, res.ATA04_Final = some s ∧ isAta04 s = true) ∧
    res.ATA04_Entered = WOProcessor.normalize_ata wo.ATA04_Entered ∧
    (res.ATA04_Derived = none ∨
      ∃ p, cfg.predict_ata wo.Defect_Text = some p ∧ res.ATA04_Derived = some p.ata04) := by
  unfold WOProcessor.process_wo at h
  rcases hf : cfg.filter_non_defect with _ | _ <;> rw [hf] at h <;> dsimp only at h <;>
    rw [hc] at h <;> dsimp only [Option.map_none'] at h
  -- filter disabled
  · simp only [Bool.false_eq_true, false_and, if_false] at h
    rcases hcit : CitationExtractor.extract_citations wo.Rectification_Text with _ | ⟨c0, cs0⟩ <;>
      rw [hcit] at h <;> dsimp only at h
    · by_cases hm : cfg.mode = "catalog"
      · rw [if_pos hm] at h
        rcases hpred : cfg.predict_ata wo.Defect_Text with _ | ⟨p⟩ <;>
          rw [hpred] at h <;> dsimp only at h
        · rcases hd : DecisionEngine.make_decision cfg.confidence_threshold
              (some (WOProcessor.normalize_ata wo.ATA04_Entered)) none none none none with
              _ | ⟨d⟩ <;> rw [hd] at h <;> dsimp only at h
          · exact Except.noConfusion h
          · rw [Except.ok.injEq, Prod.mk.injEq] at h
            obtain ⟨hres, hst⟩ := h
            subst hres
            exact ⟨Or.inl rfl, fun _ => ok_final_shape hd, rfl, Or.inl rfl⟩
        · rcases hd : DecisionEngine.make_decision cfg.confidence_threshold
              (some (WOProcessor.normalize_ata wo.ATA04_Entered)) none none
              (some p.ata04) (some p.score) with
              _ | ⟨d⟩ <;> rw [hd] at h <;> dsimp only at h
          · exact Except.noConfusion h
          · rw [Except.ok.injEq, Prod.mk.injEq] at h
            obtain ⟨hres, hst⟩ := h
            subst hres
            exact ⟨Or.inl rfl, fun _ => ok_final_shape hd, rfl, Or.inr ⟨p, rfl, rfl⟩⟩
      · rw [if_neg hm] at h
        dsimp only at h
        rcases hd : DecisionEngine.make_decision cfg.confidence_threshold
            (some (WOProcessor.normalize_ata wo.ATA04_Entered)) none none none none with
            _ | ⟨d⟩ <;> rw [hd] at h <;> dsimp only at h
        · exact Except.noConfusion h
        · rw [Except.ok.injEq, Prod.mk.injEq] at h
          obtain ⟨hres, hst⟩ := h
          subst hres
          exact ⟨Or.inl rfl, fun _ => ok_final_shape hd, rfl, Or.inl rfl⟩
    · by_cases hm : cfg.mode = "catalog"
      · rw [if_pos hm] at h
        rcases hpred : cfg.predict_ata wo.Defect_Text with _ | ⟨p⟩ <;>
          rw [hpred] at h <;> dsimp only at h
        · rcases hd : DecisionEngine.make_decision cfg.confidence_threshold
              (some (WOProcessor.normalize_ata wo.ATA04_Entered)) (some c0.ata04) (some true) none none with
              _ | ⟨d⟩ <;> rw [hd] at h <;> dsimp only at h
          · exact Except.noConfusion h
          · rw [Except.ok.injEq, Prod.mk.injEq] at h
            obtain ⟨hres, hst⟩ := h
            subst hres
            exact ⟨Or.inr ⟨c0.ata04, rfl,
              (extract_citations_good wo.Rectification_Text).1 c0 (by
                rw [hcit]
                exact List.mem_cons_self _ _)⟩, fun _ => ok_final_shape hd, rfl, Or.inl rfl⟩
        · rcases hd : DecisionEngine.make_decision cfg.confidence_threshold
              (some (WOProcessor.normalize_ata wo.ATA04_Entered)) (some c0.ata04) (some true)
              (some p.ata04) (some p.score) with
              _ | ⟨d⟩ <;> rw [hd] at h <;> dsimp only at h
          · exact Except.noConfusion h
          · rw [Except.ok.injEq, Prod.mk.injEq] at h
            obtain ⟨hres, hst⟩ := h
            subst hres
            exact ⟨Or.inr ⟨c0.ata04, rfl,
              (extract_citations_good wo.Rectification_Text).1 c0 (by
                rw [hcit]
                exact List.mem_cons_self _ _)⟩, fun _ => ok_final_shape hd, rfl, Or.inr ⟨p, rfl, rfl⟩⟩
      · rw [if_neg hm] at h
        dsimp only at h
        rcases hd : DecisionEngine.make_decision cfg.confidence_threshold
            (some (WOProcessor.normalize_ata wo.ATA04_Entered)) (some c0.ata04) (some true) none none with
            _ | ⟨d⟩ <;> rw [hd] at h <;> dsimp only at h
        · exact Except.noConfusion h
        · rw [Except.ok.injEq, Prod.mk.injEq] at h
          obtain ⟨hres, hst⟩ := h
          subst hres
          exact ⟨Or.inr ⟨c0.ata04, rfl,
              (extract_citations_good wo.Rectification_Text).1 c0 (by
                rw [hcit]
                exact List.mem_cons_self _ _)⟩, fun _ => ok_final_shape hd, rfl, Or.inl rfl⟩
  -- filter enabled: split on the gate outcome
  · rcases hgate : NonDefectFilter.is_technical_defect wo.Defect_Text wo.Rectification_Text with
      ⟨gb, greason⟩
    rw [hgate] at h
    dsimp only at h
    rcases gb with _ | _ <;>
      simp only [eq_self_iff_true, true_and, and_true, Bool.true_eq_false, and_false,
        if_true, if_false] at h
    -- gate said non-defect: short-circuit
    · rw [Except.ok.injEq, Prod.mk.injEq] at h
      obtain ⟨hres, hst⟩ := h
      subst hres
      exact ⟨Or.inl rfl, fun hne => absurd rfl hne, rfl, Or.inl rfl⟩
    -- gate said defect: continue through the phases
    rcases hcit : CitationExtractor.extract_citations wo.Rectification_Text with _ | ⟨c0, cs0⟩ <;>
      rw [hcit] at h <;> dsimp only at h
    · by_cases hm : cfg.mode = "catalog"
      · rw [if_pos hm] at h
        rcases hpred : cfg.predict_ata wo.Defect_Text with _ | ⟨p⟩ <;>
          rw [hpred] at h <;> dsimp only at h
        · rcases hd : DecisionEngine.make_decision cfg.confidence_threshold
              (some (WOProcessor.normalize_ata wo.ATA04_Entered)) none none none none with
              _ | ⟨d⟩ <;> rw [hd] at h <;> dsimp only at h
          · exact Except.noConfusion h
          · rw [Except.ok.injEq, Prod.mk.injEq] at h
            obtain ⟨hres, hst⟩ := h
            subst hres
            exact ⟨Or.inl rfl, fun _ => ok_final_shape hd, rfl, Or.inl rfl⟩
        · rcases hd : DecisionEngine.make_decision cfg.confidence_threshold
              (some (WOProcessor.normalize_ata wo.ATA04_Entered)) none none
              (some p.ata04) (some p.score) with
              _ | ⟨d⟩ <;> rw [hd] at h <;> dsimp only at h
          · exact Except.noConfusion h
          · rw [Except.ok.injEq, Prod.mk.injEq] at h
            obtain ⟨hres, hst⟩ := h
            subst hres
            exact ⟨Or.inl rfl, fun _ => ok_final_shape hd, rfl, Or.inr ⟨p, rfl, rfl⟩⟩
      · rw [if_neg hm] at h
        dsimp only at h
        rcases hd : DecisionEngine.make_decision cfg.confidence_threshold
            (some (WOProcessor.normalize_ata wo.ATA04_Entered)) none none none none with
            _ | ⟨d⟩ <;> rw [hd] at h <;> dsimp only at h
        · exact Except.noConfusion h
        · rw [Except.ok.injEq, Prod.mk.injEq] at h
          obtain ⟨hres, hst⟩ := h
          subst hres
          exact ⟨Or.inl rfl, fun _ => ok_final_shape hd, rfl, Or.inl rfl⟩
    · by_cases hm : cfg.mode = "catalog"
      · rw [if_pos hm] at h
        rcases hpred : cfg.predict_ata wo.Defect_Text with _ | ⟨p⟩ <;>
          rw [hpred] at h <;> dsimp only at h
        · rcases hd : DecisionEngine.make_decision cfg.confidence_threshold
              (some (WOProcessor.normalize_ata wo.ATA04_Entered)) (some c0.ata04) (some true) none none with
              _ | ⟨d⟩ <;> rw [hd] at h <;> dsimp only at h
          · exact Except.noConfusion h
          · rw [Except.ok.injEq, Prod.mk.injEq] at h
            obtain ⟨hres, hst⟩ := h
            subst hres
            exact ⟨Or.inr ⟨c0.ata04, rfl,
              (extract_citations_good wo.Rectification_Text).1 c0 (by
                rw [hcit]
                exact List.mem_cons_self _ _)⟩, fun _ => ok_final_shape hd, rfl, Or.inl rfl⟩
        · rcases hd : DecisionEngine.make_decision cfg.confidence_threshold
              (some (WOProcessor.normalize_ata wo.ATA04_Entered)) (some c0.ata04) (some true)
              (some p.ata04) (some p.score) with
              _ | ⟨d⟩ <;> rw [hd] at h <;> dsimp only at h
          · exact Except.noConfusion h
          · rw [Except.ok.injEq, Prod.mk.injEq] at h
            obtain ⟨hres, hst⟩ := h
            subst hres
            exact ⟨Or.inr ⟨c0.ata04, rfl,
              (extract_citations_good wo.Rectification_Text).1 c0 (by
                rw [hcit]
                exact List.mem_cons_self _ _)⟩, fun _ => ok_final_shape hd, rfl, Or.inr ⟨p, rfl, rfl⟩⟩
      · rw [if_neg hm] at h
        dsimp only at h
        rcases hd : DecisionEngine.make_decision cfg.confidence_threshold
            (some (WOProcessor.normalize_ata wo.ATA04_Entered)) (some c0.ata04) (some true) none none with
            _ | ⟨d⟩ <;> rw [hd] at h <;> dsimp only at h
        · exact Except.noConfusion h
        · rw [Except.ok.injEq, Prod.mk.injEq] at h
          obtain ⟨hres, hst⟩ := h
          subst hres
          exact ⟨Or.inr ⟨c0.ata04, rfl,
              (extract_citations_good wo.Rectification_Text).1 c0 (by
                rw [hcit]
                exact List.mem_cons_self _ _)⟩, fun _ => ok_final_shape hd, rfl, Or.inl rfl⟩

/-- Claim C6 (amended): rule 4 of the cascade fires when a valid E1 is present,
rules 1-2 do not apply, and either E2 is absent after normalization or the E2
score is nonzero and below 0.3: the result is CONFIRM with final code E0 and
confidence 0.92 when E0 equals E1, and otherwise CORRECT with final code E1 and
confidence 0.90.  A score of exactly 0 with E2 present is excluded: Python's
`e2_score and e2_score < 0.3` is falsy at 0.0, so the cascade falls through
(see the counterexample). -/
theorem C6_rule4_amended (thr : ℚ) (e0r e1r : Option String) (v : Option Bool)
    (e2r : Option String) (sc : Option ℚ) (a : String)
    (h1 : (if v = some true then DecisionEngine.normalize e1r else none) = some a)
    (h2 : DecisionEngine.normalize e2r = none ∨ ¬DecisionEngine.normalize e2r = some a)
    (h3 : DecisionEngine.normalize e2r = none ∨ DecisionEngine.scTruthyLt sc (mkRat 3 10)) :
    DecisionEngine.make_decision thr e0r e1r v e2r sc =
      .ok (if DecisionEngine.normalize e0r = some a then
        ⟨"CONFIRM", DecisionEngine.normalize e0r, mkRat 92 100,
          "Valid citation confirms entered ATA"⟩
      else
        ⟨"CORRECT", some a, mkRat 90 100,
          "Valid citation " ++ a ++ " differs from entered " ++
            optStr (DecisionEngine.normalize e0r)⟩) := by
  unfold DecisionEngine.make_decision
  rw [h1]
  rw [if_neg ?c1, if_neg ?c2, if_neg ?c3, if_pos ?c4]
  case c1 =>
    rintro ⟨-, -, he2s, -, he12⟩
    rcases h2 with h2 | h2
    · rw [h2] at he2s
      cases he2s
    · exact h2 (he12 ▸ rfl)
  case c2 =>
    rintro ⟨-, he2s, he12, -⟩
    rcases h2 with h2 | h2
    · rw [h2] at he2s
      cases he2s
    · exact h2 (he12 ▸ rfl)
  case c3 =>
    rintro ⟨-, -, -, he1n⟩
    cases he1n
  case c4 => exact ⟨rfl, h3⟩
  split_ifs with h0
  · rfl
  · rfl

/-! ## Claim theorems -/

/-- Claim C1 (refuted, code bug): `make_decision` is not total.  With entered
and derived codes agreeing, no valid citation, and the derived score absent,
the cascade reaches Case 3 and its reason f-string formats the `None` score
with `:.2f`; Python raises `TypeError`, modelled here as `.error ()`. -/
theorem C1_make_decision_not_total :
    DecisionEngine.make_decision (mkRat 75 100) (some "21-26") none none
      (some "21-26") none = .error () := by decide

/-- Claim C2 (refuted, code bug): two rows with identical texts but different
entered codes; the second row's verdict, final ATA and confidence come from
the text-keyed cache (the first row's CONFIRM at 0.92), while the decision
engine run fresh on the second row's own entered code yields CORRECT at 0.90:
the decision step is served from cache, contradicting the spec. -/
theorem C2_decision_served_from_cache :
    ((WOProcessor.process_wo { predict_ata := fun _ => none } []
        ⟨"21-26", "Hydraulic leak observed", "Checked per TSM 21-26-00",
         "", "", "", ""⟩).bind fun r1 =>
      (WOProcessor.process_wo { predict_ata := fun _ => none } r1.2
        ⟨"32-11", "Hydraulic leak observed", "Checked per TSM 21-26-00",
         "", "", "", ""⟩).map fun r2 =>
        (r2.1.Decision, r2.1.ATA04_Final, r2.1.Confidence, r2.1.ATA04_Entered)) =
      .ok ("CONFIRM", some "21-26", some (mkRat 92 100), "32-11") ∧
    DecisionEngine.make_decision (mkRat 75 100) (some "32-11") (some "21-26")
        (some true) none none =
      .ok ⟨"CORRECT", some "21-26", mkRat 90 100,
        "Valid citation 21-26 differs from entered 32-11"⟩ ∧
    ("CONFIRM" : String) ≠ "CORRECT" ∧ mkRat 92 100 ≠ mkRat 90 100 := by
  refine ⟨by decide, by decide, by decide, by decide⟩

/-- Counterexample to the original claim C3: a work order entered as `1A`
(non-normalizable) and gated as non-defect exposes the raw string `1A` both as
the entered ATA and as the final ATA of the result, and `1A` does not match
the boundary format. -/
theorem C3_counterexample_raw_entered :
    (WOProcessor.process_wo { predict_ata := fun _ => none } []
        ⟨"1A", "Scheduled inspection due", "", "", "", "", ""⟩).map
      (fun r => (r.1.ATA04_Entered, r.1.ATA04_Final)) = .ok ("1A", some "1A") ∧
    isAta04 "1A" = false ∧ ("1A" : String) ≠ "" := by
  refine ⟨by decide, by decide, by decide⟩

/-- Instantiation of the amended boundary claim on the concrete blank row. -/
theorem C3_ata_boundary_amended_witness :
    C3res.ATA04_Entered = WOProcessor.normalize_ata "21-26" ∧
    (C3res.ATA04_From_Cited = none ∨
      ∃ s, C3res.ATA04_From_Cited = some s ∧ isAta04 s = true) := by
  have h := C3_ata_boundary_amended { predict_ata := fun _ => none } []
    ⟨"21-26", "", "", "", "", "", ""⟩ C3res [("|", C3res)] rfl (by decide)
  exact ⟨h.2.2.1, h.1⟩

/-- Claim C4 (refuted, code bug): the processor marks every extracted citation
as existing (`Cited_Exists = some true`) without consulting any registry — the
source hardcodes `True` with a TODO — so a citation with no validation
response (here the fictitious task `99-99-99`, with no registry in the
pipeline at all) is still flagged valid and used as E1. -/
theorem C4_cited_exists_hardcoded :
    (WOProcessor.process_wo { predict_ata := fun _ => none } []
        ⟨"29-11", "Hydraulic leak observed", "Checked per TSM 99-99-99",
         "", "", "", ""⟩).map
      (fun r => (r.1.Cited_Exists, r.1.Cited_Task, r.1.Cited_Manual)) =
      .ok (some true, some "99-99-99", some "TSM") := by decide

/-- Short-circuit claim instantiated on a routine-inspection row. -/
theorem C5_non_defect_short_circuit_witness :
    ∃ res st, WOProcessor.process_wo { predict_ata := fun _ => none } []
        ⟨"2126", "Scheduled inspection due", "", "", "", "", ""⟩ = .ok (res, st) ∧
      res.Decision = "NON_DEFECT" ∧
      res.ATA04_Final = some (WOProcessor.normalize_ata "2126") ∧
      res.Confidence = some (mkRat 99 100) ∧
      res.Reason = some ("Non-technical: " ++
        "Routine maintenance: 'scheduled inspection'") ∧
      res.Is_Technical_Defect = false ∧
      res.ATA04_From_Cited = none ∧ res.Cited_Manual = none ∧ res.Cited_Task = none ∧
      res.Cited_Exists = none ∧ res.ATA04_Derived = none ∧ res.Derived_Score = none ∧
      res.Derived_DocType = none ∧ res.Evidence_Snippet = none ∧
      res.Evidence_Source = none :=
  C5_non_defect_short_circuit { predict_ata := fun _ => none } []
    ⟨"2126", "Scheduled inspection due", "", "", "", "", ""⟩
    "Routine maintenance: 'scheduled inspection'" rfl rfl (by decide)

/-- Counterexample to the original claim C6: with a valid citation, a distinct
derived code and a derived score of exactly 0, the claimed CORRECT/0.90
outcome does not occur; `e2_score and e2_score < 0.3` is falsy at 0.0, the
cascade falls through to Case 6 and returns REVIEW at 0.65. -/
theorem C6_counterexample_zero_score :
    DecisionEngine.make_decision (mkRat 75 100) (some "32-11") (some "21-26")
        (some true) (some "11-22") (some (mkRat 0 1)) =
      .ok ⟨"REVIEW", some "32-11", mkRat 65 100,
        "All differ: E0=32-11, citation=21-26, catalog=11-22"⟩ ∧
    ("REVIEW" : String) ≠ "CORRECT" ∧
    (some "32-11" : Option String) ≠ some "21-26" ∧
    mkRat 65 100 ≠ mkRat 90 100 := by
  refine ⟨by decide, by decide, by decide, by decide⟩

/-- Rule-4 amended claim instantiated with matching E0 and E1 and no E2. -/
theorem C6_rule4_amended_witness :
    DecisionEngine.make_decision (mkRat 75 100) (some "21-26") (some "21-26")
        (some true) none none =
      .ok (if DecisionEngine.normalize (some "21-26") = some "21-26" then
        ⟨"CONFIRM", DecisionEngine.normalize (some "21-26"), mkRat 92 100,
          "Valid citation confirms entered ATA"⟩
      else
        ⟨"CORRECT", some "21-26", mkRat 90 100,
          "Valid citation " ++ "21-26" ++ " differs from entered " ++
            optStr (DecisionEngine.normalize (some "21-26"))⟩) :=
  C6_rule4_amended (mkRat 75 100) (some "21-26") (some "21-26") (some true)
    none none "21-26" (by decide) (Or.inl rfl) (Or.inl rfl)

/-- Counterexample to the original claim C7: on the non-numeric input `1A` the
processor's normalizer returns the raw input string itself — not null — and
that string does not match the boundary format. -/
theorem C7_counterexample_raw_passthrough :
    WOProcessor.normalize_ata "1A" = "1A" ∧ isAta04 "1A" = false ∧
    ("1A" : String) ≠ "" := by
  refine ⟨by decide, by decide, by decide⟩

/-- Claim C7 (amended): the engine's `_normalize` meets the spec contract —
with at least four digits present both normalizers format the first four
digits as `AA-BB`, and with fewer the engine returns `None` — but on failure
the processor's `_normalize_ata` returns the stripped raw string instead of
null (see the counterexample). -/
theorem C7_normalizer_contract (s : String) :
    (4 ≤ (digitsOf s).length →
      DecisionEngine.normalize (some s) =
        some (String.mk ((digitsOf s).take 2) ++ "-" ++
          String.mk (((digitsOf s).drop 2).take 2)) ∧
      WOProcessor.normalize_ata s =
        String.mk ((digitsOf s).take 2) ++ "-" ++
          String.mk (((digitsOf s).drop 2).take 2)) ∧
    ((digitsOf s).length < 4 →
      DecisionEngine.normalize (some s) = none ∧
      WOProcessor.normalize_ata s = pyStrip s) := by
  constructor
  · intro h4
    rw [DecisionEngine.normalize_spec, WOProcessor.normalize_ata_spec,
      if_pos h4, if_pos h4]
    exact ⟨rfl, rfl⟩
  · intro h4
    rw [DecisionEngine.normalize_spec, WOProcessor.normalize_ata_spec,
      if_neg (by omega), if_neg (by omega)]
    exact ⟨rfl, rfl⟩

/-- Normalizer contract instantiated on `21-26-00` (enough digits) and `1A`
(too few digits). -/
theorem C7_normalizer_contract_witness :
    (DecisionEngine.normalize (some "21-26-00") =
      some (String.mk ((digitsOf "21-26-00").take 2) ++ "-" ++
        String.mk (((digitsOf "21-26-00").drop 2).take 2)) ∧
     WOProcessor.normalize_ata "21-26-00" =
      String.mk ((digitsOf "21-26-00").take 2) ++ "-" ++
        String.mk (((digitsOf "21-26-00").drop 2).take 2)) ∧
    (DecisionEngine.normalize (some "1A") = none ∧
     WOProcessor.normalize_ata "1A" = pyStrip "1A") :=
  ⟨(C7_normalizer_contract "21-26-00").1 (by decide),
   (C7_normalizer_contract "1A").2 (by decide)⟩

/-- Claim C8: the extractor's (manual type, task number) keys are always free
of duplicates — a citation is added only when no earlier, higher-priority
pattern already produced its key — and on the text
`Performed troubleshooting per TSM 21-26-00`, where several patterns match
overlapping text, exactly one citation comes back: TSM, `21-26`, `21-26-00`. -/
theorem C8_citation_priority_dedup :
    (∀ text : String,
      ((CitationExtractor.extract_citations text).map
        CitationExtractor.citeKey).Nodup) ∧
    (CitationExtractor.extract_citations
        "Performed troubleshooting per TSM 21-26-00").map
      (fun c => (c.manual_type, c.ata04, c.task_number)) =
      [("TSM", "21-26", "21-26-00")] :=
  ⟨fun text => (extract_citations_good text).2, by decide⟩

/-- Claim C9: the gate checks the defect-override patterns first, so whenever
any override pattern matches the combined lower-cased text the work order is
classified a defect — regardless of any non-defect pattern also matching —
with the matched phrase reported as the reason; and when neither pattern set
matches anywhere, the gate defaults to classifying the order as a defect. -/
theorem C9_override_precedence (d a : String) :
    ((∃ r ∈ NonDefectFilter.DEFECT_OVERRIDE_PATTERNS,
        matchesSomewhere r none (combinedChars d a) = true) →
      ∃ i len caps,
        reSearch NonDefectFilter.defectOverrideRegex (combinedChars d a) =
          some (i, len, caps) ∧
        NonDefectFilter.is_technical_defect d a =
          (true, "Defect indicator found: '" ++
            matchText (combinedChars d a) i len ++ "'")) ∧
    ((∀ r ∈ NonDefectFilter.DEFECT_OVERRIDE_PATTERNS,
        matchesSomewhere r none (combinedChars d a) = false) →
      (∀ r ∈ NonDefectFilter.NON_DEFECT_PATTERNS,
          matchesSomewhere r none (combinedChars d a) = false) →
      NonDefectFilter.is_technical_defect d a =
        (true, "Default: no non-defect pattern found")) := by
  have key : ∀ (L : List Rx),
      (∀ r ∈ L, matchesSomewhere r none (combinedChars d a) = false) →
      reSearch (rxAlt L) (combinedChars d a) = none := by
    intro L hL
    rcases hh : reSearch (rxAlt L) (combinedChars d a) with _ | m
    · rfl
    · exfalso
      have h1 : (firstMatchAux (rxAlt L) none (combinedChars d a) 0).isSome =
          matchesSomewhere (rxAlt L) none (combinedChars d a) :=
        firstMatchAux_isSome (rxAlt L) (combinedChars d a) none 0
      rw [show firstMatchAux (rxAlt L) none (combinedChars d a) 0 = some m from hh]
        at h1
      obtain ⟨r, hr, hrt⟩ := (matchesSomewhere_rxAlt L (combinedChars d a) none).mp
        h1.symm
      rw [hL r hr] at hrt
      cases hrt
  constructor
  · rintro h
    have hm : matchesSomewhere (rxAlt NonDefectFilter.DEFECT_OVERRIDE_PATTERNS)
        none (combinedChars d a) = true :=
      (matchesSomewhere_rxAlt _ _ _).mpr h
    have hs : (reSearch NonDefectFilter.defectOverrideRegex
        (combinedChars d a)).isSome = true := by
      show (firstMatchAux (rxAlt NonDefectFilter.DEFECT_OVERRIDE_PATTERNS) none
        (combinedChars d a) 0).isSome = true
      rw [firstMatchAux_isSome]
      exact hm
    obtain ⟨⟨i, len, caps⟩, he⟩ := Option.isSome_iff_exists.mp hs
    refine ⟨i, len, caps, he, ?_⟩
    unfold NonDefectFilter.is_technical_defect
    dsimp only
    rw [show reSearch NonDefectFilter.defectOverrideRegex
        (lowerStr (d ++ " " ++ a)).data = some (i, len, caps) from he]
    rfl
  · intro ho hn
    unfold NonDefectFilter.is_technical_defect
    dsimp only
    rw [show reSearch NonDefectFilter.defectOverrideRegex
          (lowerStr (d ++ " " ++ a)).data = none from key _ ho,
        show reSearch NonDefectFilter.nonDefectRegex
          (lowerStr (d ++ " " ++ a)).data = none from key _ hn]

/-- Override precedence instantiated on a text containing both a cleaning
indicator and a failure indicator. -/
theorem C9_override_precedence_witness :
    ∃ i len caps,
      reSearch NonDefectFilter.defectOverrideRegex
        (combinedChars "Cleaning system failure" "") = some (i, len, caps) ∧
      NonDefectFilter.is_technical_defect "Cleaning system failure" "" =
        (true, "Defect indicator found: '" ++
          matchText (combinedChars "Cleaning system failure" "") i len ++ "'") :=
  (C9_override_precedence "Cleaning system failure" "").1
    ⟨rxCat [.wb, rxStr "failure", .wb], List.mem_cons_self _ _, by decide⟩

/-- Claim C10: whenever `make_decision` returns a result, the final ATA code
is null or the normalization of one of the three input witnesses, and the
confidence is at least 0.50. -/
theorem C10_final_from_inputs (thr : ℚ) (e0r e1r : Option String)
    (v : Option Bool) (e2r : Option String) (sc : Option ℚ) (r : DecisionResult)
    (h : DecisionEngine.make_decision thr e0r e1r v e2r sc = .ok r) :
    (r.ata04_final = none ∨ r.ata04_final = DecisionEngine.normalize e0r ∨
     r.ata04_final = DecisionEngine.normalize e1r ∨
     r.ata04_final = DecisionEngine.normalize e2r) ∧
    mkRat 1 2 ≤ r.confidence :=
  make_decision_shape thr e0r e1r v e2r sc r h

/-- Final-from-inputs claim instantiated on the only-E0 case. -/
theorem C10_final_from_inputs_witness :
    ((some "21-26" : Option String) = none ∨
     (some "21-26" : Option String) = DecisionEngine.normalize (some "21-26") ∨
     (some "21-26" : Option String) = DecisionEngine.normalize none ∨
     (some "21-26" : Option String) = DecisionEngine.normalize none) ∧
    mkRat 1 2 ≤ mkRat 65 100 :=
  C10_final_from_inputs (mkRat 75 100) (some "21-26") none none none none
    ⟨"REVIEW", some "21-26", mkRat 65 100, "No citation or catalog match found"⟩
    (by decide)
